import Mathlib

/-!
Verification of the component/manifest validation engine of this repository
(`scripts/validate_components.py` and `scripts/validate-plugins.py`) against its
natural-language specification.

Strings are embedded as `List Char` (Python `str` values); each Python string
primitive used by the validators (`strip`, `split`, `startswith`, `in`, `lower`,
…) is modelled by an executable Lean function defined below.  Fallible Python
code (statements that can raise) is modelled with `Except PyErr`.  Machine text
is ASCII throughout, so `Char`-level operations coincide with Python's.
-/

deriving instance DecidableEq for Except

/-- Convert a Lean string literal to the `List Char` representation used for
Python strings throughout this development. -/
def chars (s : String) : List Char := s.data

/-- Python whitespace for `str.strip()`: space, tab, newline, carriage return,
form feed, vertical tab. -/
def isPySpace (c : Char) : Bool :=
  c == ' ' || c == '\t' || c == '\n' || c == '\r' || c == '\x0c' || c == '\x0b'

/-- Remove trailing Python whitespace (`str.rstrip()`). -/
def rstrip : List Char → List Char
  | [] => []
  | c :: cs =>
      match rstrip cs with
      | [] => if isPySpace c then [] else [c]
      | r => c :: r

/-- Python `str.strip()`: drop leading and trailing whitespace. -/
def pyStrip (s : List Char) : List Char := rstrip (s.dropWhile isPySpace)

/-- Locate the first occurrence of the (non-empty) substring `sep`:
`splitAux sep s = some (before, after)` splits around the first occurrence,
`none` when `sep` does not occur in `s`. -/
def splitAux (sep : List Char) : List Char → Option (List Char × List Char)
  | [] => none
  | c :: rest =>
      if sep.isPrefixOf (c :: rest) then some ([], (c :: rest).drop sep.length)
      else
        match splitAux sep rest with
        | some (l, r) => some (c :: l, r)
        | none => none

/-- Python `s in t` for a non-empty substring `s`. -/
def containsSub (s sub : List Char) : Bool := (splitAux sub s).isSome

/-- Python `str.split(sep, maxsplit)` with a finite `maxsplit` and non-empty
separator (the only form the validators use with a multi-character separator). -/
def pySplitN (sep : List Char) : Nat → List Char → List (List Char)
  | 0, s => [s]
  | n + 1, s =>
      match splitAux sep s with
      | none => [s]
      | some (l, r) => l :: pySplitN sep n r

/-- Python `str.split(c)` for a single-character separator with no `maxsplit`
(used for `split("\n")`, `split(",")`, `split("/")`). -/
def pySplitChar (c : Char) : List Char → List (List Char)
  | [] => [[]]
  | x :: xs =>
      if x == c then [] :: pySplitChar c xs
      else
        match pySplitChar c xs with
        | h :: t => (x :: h) :: t
        | [] => [[x]]

/-- Python `str.lower()` (ASCII case mapping; all document text handled by the
validators is ASCII). -/
def pyLower (s : List Char) : List Char := s.map Char.toLower

/-- Python `str.count(sub)`: number of non-overlapping occurrences, scanning
left to right.  The fuel argument of the worker is bounded by the string length,
which the recursion never exhausts. -/
def countSubGo (sub : List Char) : Nat → List Char → Nat
  | 0, _ => 0
  | fuel + 1, s =>
      match splitAux sub s with
      | none => 0
      | some (_, r) => 1 + countSubGo sub fuel r

def countSub (s sub : List Char) : Nat := countSubGo sub (s.length + 1) s

/-- Render a natural number the way Python interpolates an `int`. -/
def natStr (n : Nat) : List Char := chars (Nat.repr n)

/-- Ordered map over a list, concatenating the produced diagnostic lists (the
shape of every `for`-loop in the validators that appends to a result list). -/
def collectMap (f : α → List β) : List α → List β
  | [] => []
  | x :: xs => f x ++ collectMap f xs

/-- Like `collectMap` but passing the running index, modelling
`for i, x in enumerate(l)`. -/
def collectIdx (f : Nat → α → List β) : Nat → List α → List β
  | _, [] => []
  | i, x :: xs => f i x ++ collectIdx f (i + 1) xs

/-- Python dict insertion `d[k] = v` on an association list that keeps insertion
order: an existing key keeps its position and gets the new value, a new key is
appended. -/
def iou (l : List (List Char × α)) (k : List Char) (v : α) : List (List Char × α) :=
  if l.any (fun p => p.1 == k) then l.map (fun p => if p.1 = k then (k, v) else p)
  else l ++ [(k, v)]

/-- Python dict lookup `d.get(k)` / `d[k]` / `k in d` on an association list. -/
def aget (l : List (List Char × α)) (k : List Char) : Option α :=
  match l with
  | [] => none
  | p :: t => if p.1 = k then some p.2 else aget t k

/-- Severity taxonomy of the diagnostic model. -/
inductive Severity where
  | error
  | warning
  | info
deriving DecidableEq

/-- `ValidationResult` of `validate_components.py`: validity flag, message,
optional line/column, severity. -/
structure ValidationResult where
  is_valid : Bool
  message : List Char
  line : Option Nat := none
  column : Option Nat := none
  severity : Severity := .error
deriving DecidableEq

/-- Shorthand for `add_result(is_valid, message, None, None, severity)`. -/
def vres (b : Bool) (m : List Char) (sev : Severity) : ValidationResult :=
  ⟨b, m, none, none, sev⟩

/-- `ValidationError` of `validate-plugins.py`: file path, message, severity. -/
structure ValidationError where
  file_path : List Char
  message : List Char
  severity : Severity := .error
deriving DecidableEq

/-- Python exceptions that the modelled code can raise. -/
inductive PyErr where
  | typeError (msg : List Char)
  | valueError (msg : List Char)
  | attributeError (msg : List Char)
  | notADirectoryError (msg : List Char)
deriving DecidableEq

/-- Character class of the regex `[a-z0-9-]`. -/
def isKebabChar (c : Char) : Bool :=
  (decide ('a' ≤ c) && decide (c ≤ 'z')) || (decide ('0' ≤ c) && decide (c ≤ '9')) || c == '-'

/-- Python `re.match(r'^[a-z0-9-]+$', name)` as a Boolean.  Python's `$` matches
at the end of the string or just before a single trailing newline, so a name
consisting of kebab characters followed by one `'\n'` also matches. -/
def pyMatchKebab (name : List Char) : Bool :=
  let core := if name.getLast? == some '\n' then name.dropLast else name
  !core.isEmpty && core.all isKebabChar

/-- `validate_plugin_name` of `validate-plugins.py`: empty name is an error and
returns immediately; otherwise the regex check, the doubled-hyphen check and the
leading/trailing-hyphen check each append one error. -/
def validate_plugin_name (name : List Char) : List ValidationError :=
  if name.isEmpty then [⟨[], chars "Plugin name is required", .error⟩]
  else
    (if !pyMatchKebab name then
      [⟨[], chars "Plugin name '" ++ name ++
            chars "' must be kebab-case (lowercase, hyphens, numbers only)", .error⟩]
     else [])
    ++ (if containsSub name (chars "--") then
      [⟨[], chars "Plugin name '" ++ name ++
            chars "' should not contain consecutive hyphens", .error⟩]
      else [])
    ++ (if name.head? == some '-' || name.getLast? == some '-' then
      [⟨[], chars "Plugin name '" ++ name ++
            chars "' should not start or end with hyphens", .error⟩]
      else [])

/-- Modelled from the spec (§4.5), for comparison with `validate_plugin_name`:
a name must consist of lowercase ASCII letters, digits and hyphens, with no
leading or trailing hyphen and no doubled hyphen. -/
def specKebabOk (name : List Char) : Bool :=
  !name.isEmpty && name.all isKebabChar &&
    name.head? != some '-' && name.getLast? != some '-' &&
    !containsSub name (chars "--")

/-- C6: the claim's two concrete cases hold ("My Plugin" errors, "my-plugin"
passes), but the claimed equivalence with the naming pattern fails: Python's
`$` also matches before a trailing newline, so the name "my-plugin\n" violates
the spec's pattern yet produces no Error. -/
theorem c6_name_pattern_trailing_newline :
    validate_plugin_name (chars "My Plugin") =
      [⟨[], chars "Plugin name 'My Plugin' must be kebab-case (lowercase, hyphens, numbers only)",
        .error⟩]
    ∧ validate_plugin_name (chars "my-plugin") = []
    ∧ specKebabOk (chars "my-plugin\n") = false
    ∧ validate_plugin_name (chars "my-plugin\n") = [] := by
  decide

/-- JSON values as produced by `json.load` (object member order is document
order, duplicate keys removed by the parser).  Numbers are modelled as
integers; no verified property depends on fractional values. -/
inductive Json where
  | null : Json
  | bool (b : Bool) : Json
  | num (n : Int) : Json
  | str (s : List Char) : Json
  | arr (elts : List Json) : Json
  | obj (fields : List (List Char × Json)) : Json

mutual

/-- Python `repr` of a value loaded from JSON (used when an f-string
interpolates a non-string value inside a container).  String escaping inside
container reprs is not modelled; no verified property depends on it. -/
def jsonToPyRepr : Json → List Char
  | .null => chars "None"
  | .bool true => chars "True"
  | .bool false => chars "False"
  | .num n => chars (toString n)
  | .str s => chars "'" ++ s ++ chars "'"
  | .arr xs => chars "[" ++ jreprArr xs ++ chars "]"
  | .obj fs => chars "\x7b" ++ jreprObj fs ++ chars "\x7d"

def jreprArr : List Json → List Char
  | [] => []
  | [x] => jsonToPyRepr x
  | x :: xs => jsonToPyRepr x ++ chars ", " ++ jreprArr xs

def jreprObj : List (List Char × Json) → List Char
  | [] => []
  | [p] => chars "'" ++ p.1 ++ chars "': " ++ jsonToPyRepr p.2
  | p :: ps => chars "'" ++ p.1 ++ chars "': " ++ jsonToPyRepr p.2 ++ chars ", " ++ jreprObj ps

end

/-- Python `str()` of a value loaded from JSON, as interpolated by an
f-string: a string is rendered bare, anything else via `repr`. -/
def jsonToPyStr : Json → List Char
  | .str s => s
  | j => jsonToPyRepr j

/-- Python truthiness of a value loaded from JSON (`if not x`). -/
def pyFalsy : Json → Bool
  | .null => true
  | .bool b => !b
  | .num n => n == 0
  | .str s => s.isEmpty
  | .arr xs => xs.isEmpty
  | .obj fs => fs.isEmpty

/-- `HooksValidator.VALID_EVENTS`: the fixed nine-event set. -/
def HOOKS_VALID_EVENTS : List (List Char) :=
  [chars "PreToolUse", chars "PostToolUse", chars "Notification", chars "UserPromptSubmit",
   chars "Stop", chars "SubagentStop", chars "PreCompact", chars "SessionStart",
   chars "SessionEnd"]

/-- `', '.join(sorted(VALID_EVENTS))` as interpolated in the invalid-event
message. -/
def HOOKS_EVENTS_SORTED : List Char :=
  chars "Notification, PostToolUse, PreCompact, PreToolUse, SessionEnd, SessionStart, Stop, SubagentStop, UserPromptSubmit"

/-- `HooksValidator.VALID_SESSION_START_MATCHERS`. -/
def VALID_SESSION_START_MATCHERS : List (List Char) :=
  [chars "startup", chars "resume", chars "clear", chars "compact"]

/-- `HooksValidator.VALID_PRECOMPACT_MATCHERS`. -/
def VALID_PRECOMPACT_MATCHERS : List (List Char) :=
  [chars "manual", chars "auto"]

/-- `HooksValidator._validate_matcher`: the two events with closed matcher
vocabularies get a Warning for an out-of-vocabulary matcher; every other event
accepts any matcher string silently. -/
def hooksValidateMatcher (event m : List Char) : List ValidationResult :=
  if event == chars "SessionStart" && !(VALID_SESSION_START_MATCHERS.contains m) then
    [vres false (chars "Invalid matcher '" ++ m ++
       chars "' for SessionStart. Valid: clear, compact, resume, startup") .warning]
  else if event == chars "PreCompact" && !(VALID_PRECOMPACT_MATCHERS.contains m) then
    [vres false (chars "Invalid matcher '" ++ m ++
       chars "' for PreCompact. Valid: auto, manual") .warning]
  else []

/-- The optional-timeout block of `HooksValidator._validate_single_hook`.
Python `bool` is an `int`, so a Boolean timeout passes the `isinstance` check
and is compared with `0`. -/
def hooksTimeoutCheck (fl : List (List Char × Json)) (hookIdx : Nat) :
    List ValidationResult :=
  match aget fl (chars "timeout") with
  | none => []
  | some (.num n) =>
      if n ≤ 0 then
        [vres false (chars "Timeout must be a positive number in hook at index " ++
           natStr hookIdx) .error]
      else []
  | some (.bool b) =>
      if b = false then
        [vres false (chars "Timeout must be a positive number in hook at index " ++
           natStr hookIdx) .error]
      else []
  | some _ =>
      [vres false (chars "Timeout must be a positive number in hook at index " ++
         natStr hookIdx) .error]

/-- The common-issues block of `HooksValidator._validate_single_hook`: Info
acknowledgements for environment-variable references in the command. -/
def hooksCommandInfo (event cmd : List Char) : List ValidationResult :=
  (if containsSub cmd (chars "$\x7bCLAUDE_PLUGIN_ROOT\x7d") &&
       !([chars "SessionStart", chars "PreToolUse", chars "PostToolUse"].contains event) then
     [vres true (chars "Using CLAUDE_PLUGIN_ROOT variable") .info]
   else [])
  ++ (if containsSub cmd (chars "$CLAUDE_PROJECT_DIR") then
        [vres true (chars "Using CLAUDE_PROJECT_DIR variable") .info]
      else [])

/-- The command-field block of `HooksValidator._validate_single_hook`. -/
def hooksCommandCheck (event : List Char) (fl : List (List Char × Json)) (hookIdx : Nat) :
    List ValidationResult :=
  match aget fl (chars "command") with
  | none => [vres false (chars "Missing 'command' field in hook at index " ++ natStr hookIdx)
              .error]
  | some (.str cmd) =>
      if (pyStrip cmd).isEmpty then
        [vres false (chars "Command cannot be empty in hook at index " ++ natStr hookIdx)
          .error]
      else hooksTimeoutCheck fl hookIdx ++ hooksCommandInfo event cmd
  | some _ =>
      [vres false (chars "Command must be a string in hook at index " ++ natStr hookIdx)
        .error]

/-- `HooksValidator._validate_single_hook`. -/
def hooksValidateSingleHook (event : List Char) (hook : Json) (hookIdx : Nat) :
    List ValidationResult :=
  match hook with
  | .obj fl =>
      match aget fl (chars "type") with
      | none => [vres false (chars "Missing 'type' field in hook at index " ++ natStr hookIdx)
                  .error]
      | some (.str tc) =>
          if tc = chars "command" then hooksCommandCheck event fl hookIdx
          else
            [vres false (chars "Invalid hook type '" ++ tc ++
               chars "'. Only 'command' is supported") .error]
      | some t =>
          [vres false (chars "Invalid hook type '" ++ jsonToPyStr t ++
             chars "'. Only 'command' is supported") .error]
  | _ => [vres false (chars "Hook at index " ++ natStr hookIdx ++ chars " must be a JSON object")
           .error]

/-- The optional-matcher block of `HooksValidator._validate_hook_config`: a
non-string matcher is a Warning, a string matcher goes to the matcher check. -/
def hooksMatcherField (event : List Char) (fl : List (List Char × Json)) :
    List ValidationResult :=
  match aget fl (chars "matcher") with
  | none => []
  | some (.str m) => hooksValidateMatcher event m
  | some _ => [vres false (chars "Matcher must be a string") .warning]

/-- The mandatory binding-list block of `HooksValidator._validate_hook_config`. -/
def hooksBindings (event : List Char) (fl : List (List Char × Json)) (idx : Nat) :
    List ValidationResult :=
  match aget fl (chars "hooks") with
  | none =>
      [vres false (chars "Missing 'hooks' field in hook configuration at index " ++
         natStr idx) .error]
  | some (.arr hs) => collectIdx (fun j h => hooksValidateSingleHook event h j) 0 hs
  | some _ =>
      [vres false (chars "Hooks field must be a list in hook configuration at index " ++
         natStr idx) .error]

/-- `HooksValidator._validate_hook_config`. -/
def hooksValidateHookConfig (event : List Char) (cfg : Json) (idx : Nat) :
    List ValidationResult :=
  match cfg with
  | .obj fl => hooksMatcherField event fl ++ hooksBindings event fl idx
  | _ => [vres false (chars "Hook configuration at index " ++ natStr idx ++
            chars " must be a JSON object") .error]

/-- `HooksValidator._validate_event`: an event name outside the nine-event set
yields one Error and the binding list is not examined; a recognized event must
map to a list whose entries are validated in order. -/
def hooksValidateEvent (event : List Char) (v : Json) : List ValidationResult :=
  if !(HOOKS_VALID_EVENTS.contains event) then
    [vres false (chars "Invalid event name '" ++ event ++ chars "'. Valid events: " ++
       HOOKS_EVENTS_SORTED) .error]
  else
    match v with
    | .arr cfgs => collectIdx (fun i c => hooksValidateHookConfig event c i) 0 cfgs
    | _ => [vres false (chars "Event '" ++ event ++ chars "' must be a list") .error]

/-- `HooksValidator.validate` on the parsed document (file reading and JSON
parsing are modelled as given; their failure diagnostics are out of scope of
the verified claims). -/
def hooksValidate (data : Json) : List ValidationResult :=
  match data with
  | .obj fl =>
      (match aget fl (chars "description") with
       | none => []
       | some (.str _) => []
       | some _ => [vres false (chars "Description must be a string") .error]) ++
      (match aget fl (chars "hooks") with
       | none => [vres false (chars "Missing required 'hooks' field") .error]
       | some (.obj evs) => collectMap (fun p => hooksValidateEvent p.1 p.2) evs
       | some _ => [vres false (chars "Hooks must be a JSON object") .error])
  | _ => [vres false (chars "Root must be a JSON object") .error]

/-- `HooksValidator.has_errors` on the validated document. -/
def hooksHasErrors (data : Json) : Bool :=
  (hooksValidate data).any (fun r => !r.is_valid && r.severity == Severity.error)

/-- Value produced by the basic front-matter parsers: every value is a string,
except that the command/agent variants coerce `true`/`false` literals to
Booleans. -/
inductive YVal where
  | s (v : List Char)
  | b (v : Bool)
deriving DecidableEq

/-- Strip one matching pair of wrapping double or single quotes
(`value[1:-1]` under the `startswith`/`endswith` guard). -/
def stripQuotes (v : List Char) : List Char :=
  if v.head? == some '"' && v.getLast? == some '"' then (v.drop 1).dropLast
  else if v.head? == some '\'' && v.getLast? == some '\'' then (v.drop 1).dropLast
  else v

/-- Human-readable text of a modelled Python exception. -/
def pyErrMsg : PyErr → List Char
  | .typeError m => m
  | .valueError m => m
  | .attributeError m => m
  | .notADirectoryError m => m

/-- One line of `_parse_basic_yaml`: blank lines, lines without a colon and
comment lines are skipped; otherwise the line is split at the first colon.
The two-element unpacking of `line.split(":", 1)` is the only statement of the
parser that could raise, and it is guarded by the `":" in line` test. -/
def parseYamlLine (coerce : Bool) (acc : List (List Char × YVal)) (line0 : List Char) :
    Except PyErr (List (List Char × YVal)) :=
  let line := pyStrip line0
  if !line.isEmpty && line.contains ':' && !((chars "#").isPrefixOf line) then
    match pySplitN (chars ":") 1 line with
    | [k0, v0] =>
        let k := pyStrip k0
        let v1 := stripQuotes (pyStrip v0)
        let v : YVal :=
          if coerce && ([chars "true", chars "false"].contains (pyLower v1)) then
            .b (pyLower v1 == chars "true")
          else .s v1
        .ok (iou acc k v)
    | _ => .error (.valueError (chars "not enough values to unpack (expected 2, got 1)"))
  else .ok acc

def parseYamlLines (coerce : Bool) :
    List (List Char) → List (List Char × YVal) → Except PyErr (List (List Char × YVal))
  | [], acc => .ok acc
  | l :: ls, acc =>
      match parseYamlLine coerce acc l with
      | .ok acc2 => parseYamlLines coerce ls acc2
      | .error e => .error e

/-- `_parse_basic_yaml` (`coerce = false` for `SkillValidator`, `true` for the
command/agent variants, which additionally coerce Boolean literals). -/
def parseBasicYaml (coerce : Bool) (s : List Char) : Except PyErr (List (List Char × YVal)) :=
  parseYamlLines coerce (pySplitChar '\n' s) []

/-- Outcome of the shared front-matter extraction prologue of
`SkillValidator.validate` and `AgentValidator.validate`. -/
inductive ExtractOutcome where
  | noStart
  | noClose
  | extracted (fmStr mdStr : List Char)
deriving DecidableEq

/-- Front-matter extraction: the document must start with the delimiter line,
then `content.split("---", 2)` cuts at the first two occurrences of the
substring `"---"`; fewer than three parts means the closing delimiter is
missing.  Both extracted blocks are stripped. -/
def fmExtract (content : List Char) : ExtractOutcome :=
  if !((chars "---\n").isPrefixOf content) then .noStart
  else
    match pySplitN (chars "---") 2 content with
    | [_, fmRaw, mdRaw] => .extracted (pyStrip fmRaw) (pyStrip mdRaw)
    | _ => .noClose

def SKILL_REQUIRED_FIELDS : List (List Char) := [chars "name", chars "description"]

def SKILL_ALL_FIELDS : List (List Char) :=
  [chars "name", chars "description", chars "allowed-tools", chars "model"]

def VALID_TOOLS : List (List Char) :=
  [chars "Read", chars "Write", chars "Edit", chars "MultiEdit", chars "Bash", chars "LS",
   chars "Glob", chars "Grep", chars "WebSearch", chars "WebFetch", chars "Task",
   chars "SlashCommand"]

/-- `SkillValidator._validate_tool_names`. -/
def skillValidateToolNames (tools : List (List Char)) : List ValidationResult :=
  collectMap (fun t0 =>
    let t := pyStrip t0
    if VALID_TOOLS.contains t then []
    else [vres false (chars "Unknown tool in allowed-tools: " ++ t) .warning]) tools

/-- `SkillValidator._validate_frontmatter`.  The required-field loop iterates a
two-element Python set; the modelled iteration order is name-then-description
(every verified property is insensitive to this order).  The `isinstance(..,
list)` arm of the allowed-tools check has no counterpart because the basic
parser never produces a list.  The unguarded `len(desc)` raises when the
description value is a Boolean; the skill parser never produces one, but the
possibility is part of the model (second component). -/
def skillFmChecks (fm : List (List Char × YVal)) : List ValidationResult × Option PyErr :=
  let descPart : List ValidationResult × Option PyErr :=
    match aget fm (chars "description") with
    | some (.s d) =>
        (if d.length < 10 then
           [vres false (chars "Description should be more descriptive (at least 10 characters)")
             .warning]
         else if !(containsSub (pyLower d) (chars "use when")) then
           [vres false (chars "Description should include when to use the skill") .warning]
         else [], none)
    | some (.b _) => ([], some (.typeError (chars "object of type 'bool' has no len()")))
    | none => ([], none)
  (collectMap (fun fld =>
      match aget fm fld with
      | none => [vres false (chars "Missing required frontmatter field: " ++ fld) .error]
      | some (.s _) => []
      | some (.b _) =>
          [vres false (chars "Frontmatter field '" ++ fld ++ chars "' must be a string") .error])
    SKILL_REQUIRED_FIELDS
   ++ collectMap (fun p =>
        if SKILL_ALL_FIELDS.contains p.1 then []
        else [vres false (chars "Unknown frontmatter field: " ++ p.1) .warning]) fm
   ++ (match aget fm (chars "allowed-tools") with
       | none => []
       | some (.s v) => skillValidateToolNames ((pySplitChar ',' v).map pyStrip)
       | some (.b _) => [vres false (chars "allowed-tools must be a string or list") .error])
   ++ descPart.1, descPart.2)

/-- Scanner for the markdown-link regex `\[([^\]]+)\]\(([^)]+)\)` as used by
`re.findall`: leftmost, non-overlapping matches; a failed attempt at a `[`
resumes scanning right after it.  The fuel is bounded below by the scanned
length plus one, which the recursion never exhausts. -/
def findRefs : Nat → List Char → List (List Char × List Char)
  | 0, _ => []
  | fuel + 1, s =>
      match s with
      | [] => []
      | '[' :: rest =>
          (match List.span (fun c => c != ']') rest with
           | (txt, ']' :: rest2) =>
               if txt.isEmpty then findRefs fuel rest
               else
                 match rest2 with
                 | '(' :: r3 =>
                     (match List.span (fun c => c != ')') r3 with
                      | (pth, ')' :: r4) =>
                          if pth.isEmpty then findRefs fuel rest
                          else (txt, pth) :: findRefs fuel r4
                      | _ => findRefs fuel rest)
                 | _ => findRefs fuel rest
           | _ => findRefs fuel rest)
      | _ :: rest => findRefs fuel rest

def findMdRefs (s : List Char) : List (List Char × List Char) := findRefs (s.length + 1) s

/-- `SkillValidator._validate_markdown_content`. -/
def skillMdChecks (content : List Char) : List ValidationResult :=
  if (pyStrip content).isEmpty then
    [vres false (chars "SKILL.md cannot be empty after frontmatter") .error]
  else
    let lines := pySplitChar '\n' content
    (if lines.any (fun l => (chars "# ").isPrefixOf (pyStrip l)) then []
     else [vres false (chars "SKILL.md should have a main heading (# Skill Name)") .warning])
    ++ (if lines.any (fun l => containsSub (pyLower l) (chars "instruction")) then []
        else [vres false (chars "Consider adding an Instructions section") .info])
    ++ (if lines.any (fun l => containsSub (pyLower l) (chars "example")) then []
        else [vres false (chars "Consider adding an Examples section") .info])
    ++ collectMap (fun p =>
         if (chars "./").isPrefixOf p.2 || (chars "../").isPrefixOf p.2 then
           [vres true (chars "Found relative file reference: " ++ p.2) .info]
         else []) (findMdRefs content)

/-- `SkillValidator.validate` on the document text (file reading is modelled as
given).  A raise inside the front-matter checks is caught by the enclosing
`except` and appended after the diagnostics already recorded. -/
def skillValidate (content : List Char) : List ValidationResult :=
  match fmExtract content with
  | .noStart => [vres false (chars "SKILL.md must start with YAML frontmatter (---)") .error]
  | .noClose => [vres false (chars "Missing closing frontmatter delimiter (---)") .error]
  | .extracted fmStr mdStr =>
      match parseBasicYaml false fmStr with
      | .error e =>
          [vres false (chars "Invalid frontmatter: " ++ pyErrMsg e ++
             chars ". Install PyYAML for better validation") .error]
      | .ok fm =>
          match skillFmChecks fm with
          | (rs, some e) =>
              rs ++ [vres false (chars "Error parsing SKILL.md: " ++ pyErrMsg e) .error]
          | (rs, none) => rs ++ skillMdChecks mdStr

def AGENT_REQUIRED_FIELDS : List (List Char) := [chars "name", chars "description"]

def AGENT_ALL_FIELDS : List (List Char) :=
  [chars "name", chars "description", chars "tools", chars "model"]

/-- `AgentValidator._validate_tool_names`. -/
def agentValidateToolNames (tools : List (List Char)) : List ValidationResult :=
  collectMap (fun t0 =>
    let t := pyStrip t0
    if VALID_TOOLS.contains t then []
    else [vres false (chars "Unknown tool: " ++ t) .warning]) tools

/-- `AgentValidator._validate_frontmatter`.  The `', '.join` of the model set
in the unknown-model warning is interpreter-dependent set order, modelled in
declaration order; no verified property depends on it.  As for skills, the
unguarded `len(desc)` raises when the description was coerced to a Boolean. -/
def agentFmChecks (fm : List (List Char × YVal)) : List ValidationResult × Option PyErr :=
  let descPart : List ValidationResult × Option PyErr :=
    match aget fm (chars "description") with
    | some (.s d) =>
        (if d.length < 10 then
           [vres false (chars "Description should be more descriptive (at least 10 characters)")
             .warning]
         else [], none)
    | some (.b _) => ([], some (.typeError (chars "object of type 'bool' has no len()")))
    | none => ([], none)
  (collectMap (fun fld =>
      match aget fm fld with
      | none => [vres false (chars "Missing required frontmatter field: " ++ fld) .error]
      | some (.s _) => []
      | some (.b _) =>
          [vres false (chars "Frontmatter field '" ++ fld ++ chars "' must be a string") .error])
    AGENT_REQUIRED_FIELDS
   ++ collectMap (fun p =>
        if AGENT_ALL_FIELDS.contains p.1 then []
        else [vres false (chars "Unknown frontmatter field: " ++ p.1) .warning]) fm
   ++ (match aget fm (chars "tools") with
       | none => []
       | some (.s v) => agentValidateToolNames ((pySplitChar ',' v).map pyStrip)
       | some (.b _) => [vres false (chars "tools must be a string or list") .error])
   ++ (match aget fm (chars "model") with
       | none => []
       | some (.s m) =>
           if [chars "sonnet", chars "opus", chars "haiku"].contains (pyLower m) then []
           else [vres false (chars "Unknown model: " ++ m ++ chars ". Valid: sonnet, opus, haiku")
                  .warning]
       | some (.b _) => [vres false (chars "model must be a string") .error])
   ++ descPart.1, descPart.2)

/-- `AgentValidator._validate_markdown_content`. -/
def agentMdChecks (content : List Char) : List ValidationResult :=
  if (pyStrip content).isEmpty then
    [vres false (chars "Agent file cannot be empty after frontmatter") .error]
  else
    let lines := pySplitChar '\n' content
    (if lines.any (fun l => (chars "# ").isPrefixOf (pyStrip l)) then []
     else [vres false (chars "Agent file should have a main heading") .warning])
    ++ (if lines.any (fun l => containsSub (pyLower l) (chars "expert")) then []
        else [vres false (chars "Consider defining the agent's expertise clearly") .info])
    ++ (if lines.any (fun l =>
            containsSub (pyLower l) (chars "when") &&
            (containsSub (pyLower l) (chars "use") || containsSub (pyLower l) (chars "invoke")))
        then []
        else [vres false (chars "Consider specifying when to use this agent") .info])

/-- `AgentValidator.validate` on the document text. -/
def agentValidate (content : List Char) : List ValidationResult :=
  match fmExtract content with
  | .noStart => [vres false (chars "Agent file must start with YAML frontmatter (---)") .error]
  | .noClose => [vres false (chars "Missing closing frontmatter delimiter (---)") .error]
  | .extracted fmStr mdStr =>
      match parseBasicYaml true fmStr with
      | .error e =>
          [vres false (chars "Invalid frontmatter: " ++ pyErrMsg e ++
             chars ". Install PyYAML for better validation") .error]
      | .ok fm =>
          match agentFmChecks fm with
          | (rs, some e) =>
              rs ++ [vres false (chars "Error parsing agent file: " ++ pyErrMsg e) .error]
          | (rs, none) => rs ++ agentMdChecks mdStr

/-- Read-only view of the filesystem: a list of existing paths (as component
lists, relative to the working directory) with a directory flag.  Directory
listing order is entry order. -/
structure FS where
  entries : List (List (List Char) × Bool)

/-- `Path.exists()`. -/
def FS.hasPath (fs : FS) (p : List (List Char)) : Bool :=
  fs.entries.any (fun e => e.1 == p)

/-- `Path.is_dir()`. -/
def FS.isDirAt (fs : FS) (p : List (List Char)) : Bool :=
  fs.entries.any (fun e => e.1 == p && e.2)

/-- Names of the immediate children of `p` (`Path.iterdir()`), in entry order. -/
def FS.childNames (fs : FS) (p : List (List Char)) : List (List Char) :=
  fs.entries.filterMap (fun e =>
    match e.1.drop p.length with
    | [n] => if e.1.take p.length == p then some n else none
    | _ => none)

/-- `str(path)` for a relative path. -/
def pathStr (p : List (List Char)) : List Char := List.intercalate (chars "/") p

/-- One iteration of the component-directory loop of `validate_plugin_structure`.
`iterdir()` on an existing non-directory raises `NotADirectoryError`.
`Path.glob("*.md")` is modelled as the children whose name ends in `.md`
(pathlib glob does not treat dot-files specially); on an existing non-directory
it is modelled as yielding nothing. -/
def structureComponent (fs : FS) (dir : List (List Char)) (comp title : List Char) :
    Except PyErr (List ValidationError) :=
  let cpath := dir ++ [comp]
  if !fs.hasPath cpath then .ok []
  else if comp == chars "skills" then
    if !fs.isDirAt cpath then .error (.notADirectoryError (chars "Not a directory"))
    else .ok (collectMap (fun n =>
      if fs.isDirAt (cpath ++ [n]) then
        (if !fs.hasPath (cpath ++ [n, chars "SKILL.md"]) then
          [⟨pathStr (cpath ++ [n, chars "SKILL.md"]),
            chars "Skill directory '" ++ n ++ chars "' must contain SKILL.md", .error⟩]
         else [])
      else []) (fs.childNames cpath))
  else
    let mds := (fs.childNames cpath).filter (fun n => (chars ".md").isSuffixOf n)
    if mds.isEmpty then
      .ok [⟨pathStr cpath, title ++ chars " directory exists but contains no .md files", .error⟩]
    else .ok []

/-- `validate_plugin_structure` of `validate-plugins.py`.  The final README
check executes `errors.append(ValidationError(...), "warning")`: `list.append`
takes exactly one argument, so a missing `README.md` raises `TypeError` instead
of recording the intended Warning. -/
def validate_plugin_structure (fs : FS) (dir : List (List Char)) :
    Except PyErr (List ValidationError) :=
  if !fs.isDirAt dir then
    .ok [⟨pathStr dir, chars "Plugin directory does not exist", .error⟩]
  else do
    let e1 :=
      if !fs.hasPath (dir ++ [chars ".claude-plugin"]) then
        [⟨pathStr (dir ++ [chars ".claude-plugin"]),
          chars ".claude-plugin directory is required", .error⟩]
      else []
    let c1 ← structureComponent fs dir (chars "commands") (chars "Commands")
    let c2 ← structureComponent fs dir (chars "agents") (chars "Agents")
    let c3 ← structureComponent fs dir (chars "skills") (chars "Skills")
    let c4 ← structureComponent fs dir (chars "hooks") (chars "Hooks")
    if !fs.hasPath (dir ++ [chars "README.md"]) then
      .error (.typeError (chars "list.append() takes exactly one argument (2 given)"))
    else .ok (e1 ++ c1 ++ c2 ++ c3 ++ c4)

/-- `plugins_dir.parent / source` for a string source: pathlib drops the last
component for `parent` and collapses empty and single-dot components when
joining. -/
def pathJoinStr (base : List (List Char)) (s : List Char) : List (List Char) :=
  base ++ ((pySplitChar '/' s).filter (fun c => !c.isEmpty && !(c == chars ".")))

/-- Approximation of `urlparse(u)` producing a non-empty `scheme` and `netloc`:
an absolute URL of the shape `scheme://host…`.  No verified claim depends on
this branch. -/
def urlHasSchemeNetloc (u : List Char) : Bool :=
  match splitAux (chars "://") u with
  | some (sch, rest) => !sch.isEmpty && !(((pySplitChar '/' rest).headD []).isEmpty)
  | none => false

/-- Loop body of `validate_plugin_sources` for one registry entry.  A non-object
entry raises `AttributeError` at `plugin.get`.  A string source is
cross-referenced against the filesystem only when it starts with `./`; an
object source is checked structurally (`github`/`url`), where a non-falsy
non-string `repo` raises at the `"/" not in repo` test for non-container values
and a non-falsy non-string `path` raises at `path.split`. -/
def sourceEntryChecks (fs : FS) (plugins_dir : List (List Char)) (mpath : List Char)
    (pname : List Char) (source : Json) : Except PyErr (List ValidationError) :=
  match source with
      | .str s =>
          if (chars "./").isPrefixOf s then
            let ppath := pathJoinStr plugins_dir.dropLast s
            if !fs.hasPath ppath then
              .ok [⟨mpath, chars "Plugin '" ++ pname ++
                     chars "' source path does not exist: " ++ s, .error⟩]
            else if !fs.hasPath (ppath ++ [chars ".claude-plugin", chars "plugin.json"]) then
              .ok [⟨mpath, chars "Plugin '" ++ pname ++
                     chars "' missing plugin.json at: " ++ s, .error⟩]
            else .ok []
          else .ok []
      | .obj sfl =>
          match (aget sfl (chars "source")).getD (.str []) with
          | .str st =>
              if st = chars "github" then do
                let repoV := (aget sfl (chars "repo")).getD (.str [])
                let repoErrs ←
                  (if pyFalsy repoV then
                     .ok [⟨mpath, chars "Plugin '" ++ pname ++
                            chars "' GitHub source missing 'repo' field", .error⟩]
                   else
                     match repoV with
                     | .str r =>
                         .ok (if !r.contains '/' then
                           [⟨mpath, chars "Plugin '" ++ pname ++
                              chars "' GitHub repo format should be 'owner/repo', got: " ++ r,
                             .error⟩]
                          else [])
                     | .arr xs =>
                         .ok (if !xs.any (fun x =>
                                 match x with | .str v => v == chars "/" | _ => false) then
                           [⟨mpath, chars "Plugin '" ++ pname ++
                              chars "' GitHub repo format should be 'owner/repo', got: " ++
                              jsonToPyStr repoV, .error⟩]
                          else [])
                     | .obj ofl =>
                         .ok (if !ofl.any (fun p => p.1 == chars "/") then
                           [⟨mpath, chars "Plugin '" ++ pname ++
                              chars "' GitHub repo format should be 'owner/repo', got: " ++
                              jsonToPyStr repoV, .error⟩]
                          else [])
                     | _ => .error (.typeError (chars "argument of type 'int' is not iterable")))
                let pathErrs ←
                  (if fs.hasPath plugins_dir then
                     let pathV := (aget sfl (chars "path")).getD (.str [])
                     if pyFalsy pathV then .ok []
                     else
                       match pathV with
                       | .str p =>
                           let ppath := plugins_dir ++ [((pySplitChar '/' p).getLast?).getD []]
                           .ok (if !fs.hasPath ppath then
                             [⟨mpath, chars "Plugin '" ++ pname ++ chars "' local path '" ++ p ++
                                chars "' not found for validation", .warning⟩]
                            else if !fs.hasPath (ppath ++
                                [chars ".claude-plugin", chars "plugin.json"]) then
                             [⟨mpath, chars "Plugin '" ++ pname ++
                                chars "' missing plugin.json in local path: " ++ p, .warning⟩]
                            else [])
                       | _ => .error (.attributeError (chars "object has no attribute 'split'"))
                   else .ok [])
                .ok (repoErrs ++ pathErrs)
              else if st = chars "url" then
                let urlV := (aget sfl (chars "url")).getD (.str [])
                if pyFalsy urlV then
                  .ok [⟨mpath, chars "Plugin '" ++ pname ++
                         chars "' URL source missing 'url' field", .error⟩]
                else
                  match urlV with
                  | .str u =>
                      .ok (if !urlHasSchemeNetloc u then
                        [⟨mpath, chars "Plugin '" ++ pname ++ chars "' invalid URL format: " ++ u,
                          .error⟩]
                       else [])
                  | _ =>
                      .ok [⟨mpath, chars "Plugin '" ++ pname ++ chars "' invalid URL format: " ++
                             jsonToPyStr urlV, .error⟩]
              else .ok []
          | _ => .ok []
      | _ => .ok []

/-- Dispatcher of the loop body: a non-object entry raises at `plugin.get`;
an object entry is checked with its rendered name and its source value. -/
def validateSourceEntry (fs : FS) (plugins_dir : List (List Char)) (mpath : List Char)
    (plugin : Json) : Except PyErr (List ValidationError) :=
  match plugin with
  | .obj fl =>
      sourceEntryChecks fs plugins_dir mpath
        (jsonToPyStr ((aget fl (chars "name")).getD (.str (chars "unknown"))))
        ((aget fl (chars "source")).getD (.str []))
  | _ => .error (.attributeError (chars "object has no attribute 'get'"))

def sourcesLoop (fs : FS) (plugins_dir : List (List Char)) (mpath : List Char) :
    List Json → Except PyErr (List ValidationError)
  | [] => .ok []
  | p :: ps => do
      let e ← validateSourceEntry fs plugins_dir mpath p
      let rest ← sourcesLoop fs plugins_dir mpath ps
      .ok (e ++ rest)

/-- `validate_plugin_sources` of `validate-plugins.py` on the parsed
marketplace document (file reading and JSON parsing are modelled as given; a
parse failure returns no diagnostics there via the `except … pass`).  Only
`JSONDecodeError` and `KeyError` are caught, so the `TypeError`/`AttributeError`
raises of the loop body propagate. -/
def validate_plugin_sources (fs : FS) (plugins_dir : List (List Char)) (mpath : List Char)
    (m : Json) : Except PyErr (List ValidationError) :=
  match m with
  | .obj fl =>
      match aget fl (chars "plugins") with
      | none => .ok []
      | some (.arr ps) => sourcesLoop fs plugins_dir mpath ps
      | some (.str s) =>
          if s.isEmpty then .ok []
          else .error (.attributeError (chars "'str' object has no attribute 'get'"))
      | some (.obj ofl) =>
          if ofl.isEmpty then .ok []
          else .error (.attributeError (chars "'str' object has no attribute 'get'"))
      | some _ => .error (.typeError (chars "argument is not iterable"))
  | .str s =>
      if containsSub s (chars "plugins") then
        .error (.typeError (chars "string indices must be integers"))
      else .ok []
  | .arr xs =>
      if xs.any (fun x => match x with | .str v => v == chars "plugins" | _ => false) then
        .error (.typeError (chars "list indices must be integers or slices, not str"))
      else .ok []
  | _ => .error (.typeError (chars "argument is not iterable"))

/-- Modelled from the spec (§4.1), for comparison with `fmExtract`: the header
block is the text strictly between the first delimiter line and the second
delimiter line; a `---` occurring only inside another line does not close the
header.  Stripped like the code's header so that the comparison is about the
split position only. -/
def fmHeaderSpecLine (content : List Char) : Option (List Char) :=
  match pySplitChar '\n' content with
  | first :: rest =>
      if first = chars "---" then
        match rest.findIdx? (fun l => l == chars "---") with
        | some j => some (pyStrip (List.intercalate (chars "\n") (rest.take j)))
        | none => none
      else none
  | [] => none

/-- Header block as computed by the code's extractor. -/
def fmHeaderCode (content : List Char) : Option (List Char) :=
  match fmExtract content with
  | .extracted fmStr _ => some fmStr
  | _ => none

/-- A hook-registry document whose single binding runs `cmd`: used to exhibit
the behaviour of the hooks validator on documents whose only notable content is
the command text. -/
def hookDocWithCommand (cmd : List Char) : Json :=
  .obj [(chars "hooks", .obj [(chars "PreToolUse", .arr [.obj
    [(chars "hooks", .arr [.obj [(chars "type", .str (chars "command")),
      (chars "command", .str cmd)]])]])])]

/-- A matcher-related diagnostic message of the hooks validator: the
non-string-matcher Warning or one of the closed-vocabulary matcher Warnings
(which all start with `Invalid matcher '`). -/
def isMatcherMsg (m : List Char) : Bool :=
  (m == chars "Matcher must be a string") || (chars "Invalid matcher '").isPrefixOf m

/-- A hook-registry document that is schema-valid except for the matcher `m`
attached to its single `event` configuration. -/
def hookDocWithMatcher (event m : List Char) : Json :=
  .obj [(chars "hooks", .obj [(event, .arr [.obj
    [(chars "matcher", .str m),
     (chars "hooks", .arr [.obj [(chars "type", .str (chars "command")),
       (chars "command", .str (chars "echo hi"))]])]])])]

/-- A skill document with front matter holding exactly a `name` and a
`description`, followed by a body, in the layout the minimal-document claims
quantify over. -/
def skillDoc (nm d body : List Char) : List Char :=
  chars "---" ++
    ((chars "\n" ++ (chars "name: " ++ (nm ++ (chars "\ndescription: " ++ (d ++ chars "\n"))))) ++
      chars "---" ++ (chars "\n" ++ body))

/-! Helper lemmas about the string primitives. -/

theorem mem_collectMap {f : α → List β} {b : β} :
    ∀ {l : List α}, b ∈ collectMap f l ↔ ∃ a ∈ l, b ∈ f a := by
  intro l
  induction l with
  | nil => simp [collectMap]
  | cons x xs ih => simp [collectMap, List.mem_append, ih]

theorem mem_collectIdx {f : Nat → α → List β} {b : β} :
    ∀ {l : List α} {i : Nat}, b ∈ collectIdx f i l → ∃ j a, a ∈ l ∧ b ∈ f j a := by
  intro l
  induction l with
  | nil => intro i h; simp [collectIdx] at h
  | cons x xs ih =>
      intro i h
      rw [collectIdx, List.mem_append] at h
      rcases h with h | h
      · exact ⟨i, x, by simp, h⟩
      · obtain ⟨j, a, ha, hb⟩ := ih h
        exact ⟨j, a, by simp [ha], hb⟩

theorem takeAppend (k : Nat) (a b : List α) (h : k ≤ a.length) :
    (a ++ b).take k = a.take k := by
  induction a generalizing k with
  | nil =>
      have hk : k = 0 := Nat.le_zero.mp h
      subst hk; rfl
  | cons x xs ih =>
      cases k with
      | zero => rfl
      | succ k' =>
          simp only [List.cons_append, List.take_succ_cons]
          rw [ih k' (by simpa using h)]

theorem ne_append_of_take_ne (c a x : List α) (k : Nat) (hk : k ≤ a.length)
    (h : c.take k ≠ a.take k) : c ≠ a ++ x := by
  intro he
  apply h
  rw [he, takeAppend k a x hk]

theorem append_ne_append_of_take_ne (a b : List α) (x y : List α) (k : Nat)
    (ha : k ≤ a.length) (hb : k ≤ b.length) (h : a.take k ≠ b.take k) :
    a ++ x ≠ b ++ y := by
  intro he
  apply h
  have := congrArg (List.take k) he
  rwa [takeAppend k a x ha, takeAppend k b y hb] at this

theorem isPrefixOf_append_of_le [DecidableEq α] (p a b : List α) (h : p.length ≤ a.length) :
    p.isPrefixOf (a ++ b) = p.isPrefixOf a := by
  induction p generalizing a with
  | nil => simp [List.isPrefixOf]
  | cons x xs ih =>
      cases a with
      | nil => simp at h
      | cons y ys =>
          simp only [List.cons_append, List.isPrefixOf]
          show (x == y && xs.isPrefixOf (ys ++ b)) = (x == y && xs.isPrefixOf ys)
          rw [ih ys (by simpa using h)]

theorem isPrefixOf_append_self [DecidableEq α] (p t : List α) :
    p.isPrefixOf (p ++ t) = true := by
  induction p with
  | nil => simp [List.isPrefixOf]
  | cons x xs ih => simp [List.isPrefixOf, ih]

theorem exists_of_isPrefixOf [DecidableEq α] {p m : List α} (h : p.isPrefixOf m = true) :
    ∃ t, p ++ t = m := by
  induction p generalizing m with
  | nil => exact ⟨m, rfl⟩
  | cons x xs ih =>
      cases m with
      | nil => simp [List.isPrefixOf] at h
      | cons y ys =>
          simp only [List.isPrefixOf, Bool.and_eq_true, beq_iff_eq] at h
          obtain ⟨t, ht⟩ := ih h.2
          exact ⟨t, by simp [h.1, ht]⟩

theorem notPrefixOfTake [DecidableEq α] (p m : List α) (k : Nat) (hk : k ≤ p.length)
    (h : p.take k ≠ m.take k) : p.isPrefixOf m = false := by
  cases hp : p.isPrefixOf m with
  | false => rfl
  | true =>
      obtain ⟨t, ht⟩ := exists_of_isPrefixOf hp
      exact absurd (by rw [← ht, takeAppend k p t hk]) (Ne.symm h)

theorem append_ne_nil_left {a : List α} (b : List α) (h : a ≠ []) : a ++ b ≠ [] := by
  cases a with
  | nil => exact absurd rfl h
  | cons x xs => simp

theorem contains_append (a b : List Char) (c : Char) :
    (a ++ b).contains c = (a.contains c || b.contains c) := by
  induction a with
  | nil => simp
  | cons x xs ih => by_cases hx : x = c <;> simp [hx, ih, Bool.or_assoc]

theorem dropWhile_append_pos {p : α → Bool} {a : List α} (b : List α)
    (h : a.dropWhile p = []) : (a ++ b).dropWhile p = b.dropWhile p := by
  induction a with
  | nil => rfl
  | cons x xs ih =>
      by_cases hx : p x
      · simp only [List.dropWhile_cons, hx, if_true] at h ⊢
        simp only [List.cons_append, List.dropWhile_cons, hx, if_true]
        exact ih h
      · simp [List.dropWhile_cons, hx] at h

theorem dropWhile_append_neg {p : α → Bool} {a : List α} (b : List α)
    (h : a.dropWhile p ≠ []) : (a ++ b).dropWhile p = a.dropWhile p ++ b := by
  induction a with
  | nil => exact absurd rfl h
  | cons x xs ih =>
      by_cases hx : p x
      · simp only [List.dropWhile_cons, hx, if_true] at h ⊢
        simp only [List.cons_append, List.dropWhile_cons, hx, if_true]
        exact ih h
      · simp [List.dropWhile_cons, hx]

theorem rstrip_cons (c : Char) (cs : List Char) :
    rstrip (c :: cs) =
      match rstrip cs with
      | [] => if isPySpace c then [] else [c]
      | r => c :: r := rfl

theorem rstrip_append (a b : List Char) :
    rstrip (a ++ b) = if rstrip b = [] then rstrip a else a ++ rstrip b := by
  induction a with
  | nil => by_cases hb : rstrip b = [] <;> simp [hb, rstrip]
  | cons c cs ih =>
      rw [List.cons_append, rstrip_cons, ih]
      by_cases hb : rstrip b = []
      · simp only [hb, if_true]
        rw [rstrip_cons]
      · simp only [hb, if_false]
        cases hrb : rstrip b with
        | nil => exact absurd hrb hb
        | cons z zs =>
            rw [List.cons_append]
            cases hcc : cs ++ z :: zs with
            | nil => cases cs <;> simp at hcc
            | cons w ws => simp

theorem pySplitN_zero (sep s : List Char) : pySplitN sep 0 s = [s] := rfl

theorem pySplitN_succ (sep : List Char) (n : Nat) (s : List Char) :
    pySplitN sep (n + 1) s =
      match splitAux sep s with
      | none => [s]
      | some (l, r) => l :: pySplitN sep n r := rfl

theorem splitAux_cons (sep : List Char) (c : Char) (rest : List Char) :
    splitAux sep (c :: rest) =
      if sep.isPrefixOf (c :: rest) then some ([], (c :: rest).drop sep.length)
      else
        match splitAux sep rest with
        | some (l, r) => some (c :: l, r)
        | none => none := rfl

theorem splitAux_append_first (sep x y : List Char) (hsep : sep ≠ [])
    (hx : splitAux sep (x ++ sep.dropLast) = none) :
    splitAux sep (x ++ sep ++ y) = some (x, y) := by
  induction x with
  | nil =>
      have h0 : ([] : List Char) ++ sep ++ y = sep ++ y := by simp
      rw [h0]
      cases hs : sep with
      | nil => exact absurd hs hsep
      | cons s ss =>
          subst hs
          rw [List.cons_append, splitAux_cons]
          have hp : (s :: ss).isPrefixOf (s :: (ss ++ y)) = true :=
            isPrefixOf_append_self (s :: ss) y
          rw [hp]
          simp only [if_true]
          have hd : (s :: (ss ++ y)).drop (s :: ss).length = y :=
            List.drop_left (s :: ss) y
          rw [hd]
  | cons c xs ih =>
      have hx' : splitAux sep ((c :: xs) ++ sep.dropLast) =
          (if sep.isPrefixOf (c :: (xs ++ sep.dropLast)) then
            some ([], (c :: (xs ++ sep.dropLast)).drop sep.length)
          else
            match splitAux sep (xs ++ sep.dropLast) with
            | some (l, r) => some (c :: l, r)
            | none => none) := rfl
      rw [hx'] at hx
      have hnp : sep.isPrefixOf (c :: (xs ++ sep.dropLast)) = false := by
        cases hpc : sep.isPrefixOf (c :: (xs ++ sep.dropLast)) with
        | false => rfl
        | true => rw [hpc] at hx; simp at hx
      rw [hnp] at hx
      simp only [if_false, Bool.false_eq_true] at hx
      have hrec : splitAux sep (xs ++ sep.dropLast) = none := by
        cases hr : splitAux sep (xs ++ sep.dropLast) with
        | none => rfl
        | some p => rw [hr] at hx; cases p; simp at hx
      have goal1 : sep.isPrefixOf (c :: (xs ++ sep ++ y)) = false := by
        have h1 : sep.dropLast ++ [sep.getLast hsep] = sep :=
          List.dropLast_append_getLast hsep
        have hdecomp : c :: (xs ++ sep ++ y) =
            (c :: (xs ++ sep.dropLast)) ++ ([sep.getLast hsep] ++ y) := by
          calc c :: (xs ++ sep ++ y)
              = c :: (xs ++ (sep.dropLast ++ [sep.getLast hsep]) ++ y) := by rw [h1]
            _ = (c :: (xs ++ sep.dropLast)) ++ ([sep.getLast hsep] ++ y) := by simp
        rw [hdecomp, isPrefixOf_append_of_le _ _ _ (by
          simp only [List.length_cons, List.length_append, List.length_dropLast]
          have : 1 ≤ sep.length := by
            cases sep with
            | nil => exact absurd rfl hsep
            | cons a as => simp
          omega)]
        exact hnp
      have hshape : (c :: xs) ++ sep ++ y = c :: (xs ++ sep ++ y) := by simp
      rw [hshape, splitAux_cons, goal1]
      simp only [if_false, Bool.false_eq_true]
      rw [ih hrec]

theorem containsSub_splitAux {s sub : List Char} (h : containsSub s sub = false) :
    splitAux sub s = none := by
  unfold containsSub at h
  cases hs : splitAux sub s with
  | none => rfl
  | some p => rw [hs] at h; simp at h

theorem pySplitChar_ne_nil (c : Char) : ∀ (l : List Char), pySplitChar c l ≠ [] := by
  intro l
  induction l with
  | nil => simp [pySplitChar]
  | cons x xs ih =>
      rw [pySplitChar]
      by_cases hx : x == c
      · simp [hx]
      · simp only [hx, Bool.false_eq_true, if_false]
        cases hr : pySplitChar c xs with
        | nil => exact absurd hr ih
        | cons h t => simp

theorem contains_cons_false {x c : Char} {xs : List Char}
    (h : (x :: xs).contains c = false) : (x == c) = false ∧ xs.contains c = false := by
  have hmem : ¬ c = x ∧ c ∉ xs := by simpa using h
  refine ⟨beq_eq_false_iff_ne.mpr (fun he => hmem.1 he.symm), ?_⟩
  simpa using hmem.2

theorem pySplitChar_no_sep {c : Char} : ∀ {a : List Char},
    a.contains c = false → pySplitChar c a = [a] := by
  intro a
  induction a with
  | nil => intro _; rfl
  | cons x xs ih =>
      intro h
      obtain ⟨hx, hxs⟩ := contains_cons_false h
      rw [pySplitChar, hx]
      simp only [Bool.false_eq_true, if_false]
      rw [ih hxs]

theorem pySplitChar_append (c : Char) {a : List Char} (b : List Char)
    (ha : a.contains c = false) : pySplitChar c (a ++ c :: b) = a :: pySplitChar c b := by
  induction a with
  | nil => simp [pySplitChar]
  | cons x xs ih =>
      obtain ⟨hx, hxs⟩ := contains_cons_false ha
      rw [List.cons_append, pySplitChar, hx]
      simp only [Bool.false_eq_true, if_false]
      rw [ih hxs]

theorem rstrip_idem : ∀ (l : List Char), rstrip (rstrip l) = rstrip l := by
  intro l
  induction l with
  | nil => rfl
  | cons c cs ih =>
      rw [rstrip_cons]
      cases hcs : rstrip cs with
      | nil =>
          show rstrip (if isPySpace c then [] else [c]) = (if isPySpace c then [] else [c])
          by_cases hc : isPySpace c
          · rw [if_pos hc]; rfl
          · rw [if_neg hc]
            show (if isPySpace c then [] else [c]) = [c]
            rw [if_neg hc]
      | cons z zs =>
          show rstrip (c :: z :: zs) = c :: z :: zs
          rw [hcs] at ih
          rw [rstrip_cons, ih]

theorem dropWhile_head_neg {p : α → Bool} {c : α} {cs : List α} (h : p c = false) :
    (c :: cs).dropWhile p = c :: cs := by
  simp [List.dropWhile_cons, h]

theorem length_dropWhile_le (p : α → Bool) (l : List α) :
    (l.dropWhile p).length ≤ l.length := by
  induction l with
  | nil => simp
  | cons x xs ih =>
      by_cases hx : p x
      · rw [List.dropWhile_cons, if_pos hx]
        simp only [List.length_cons]
        omega
      · rw [List.dropWhile_cons, if_neg hx]

theorem dropWhile_eq_self_head {p : α → Bool} : ∀ {l : List α},
    l.dropWhile p = l → ∀ c ∈ l.head?, p c = false := by
  intro l
  cases l with
  | nil => intro _ c hc; simp at hc
  | cons x xs =>
      intro h c hc
      have hcx : x = c := by
        simpa [eq_comm] using hc
      subst hcx
      by_cases hx : p x
      · rw [List.dropWhile_cons, if_pos hx] at h
        have hlen := congrArg List.length h
        have hle := length_dropWhile_le p xs
        simp only [List.length_cons] at hlen
        omega
      · exact eq_false_of_ne_true hx

theorem dropWhile_idem (p : α → Bool) (l : List α) :
    (l.dropWhile p).dropWhile p = l.dropWhile p := by
  induction l with
  | nil => rfl
  | cons x xs ih =>
      by_cases hx : p x
      · rw [List.dropWhile_cons, if_pos hx, ih]
      · rw [List.dropWhile_cons, if_neg hx, List.dropWhile_cons, if_neg hx]

theorem dropWhile_rstrip {p : Char → Bool} {l : List Char} (h : l.dropWhile p = l) :
    (rstrip l).dropWhile p = rstrip l := by
  cases l with
  | nil => rfl
  | cons c cs =>
      have hc : p c = false := dropWhile_eq_self_head h c (by simp)
      rw [rstrip_cons]
      cases hcs : rstrip cs with
      | nil =>
          show List.dropWhile p (if isPySpace c then [] else [c]) =
            (if isPySpace c then [] else [c])
          by_cases hsp : isPySpace c
          · rw [if_pos hsp]; rfl
          · rw [if_neg hsp]
            exact dropWhile_head_neg hc
      | cons z zs =>
          show List.dropWhile p (c :: z :: zs) = c :: z :: zs
          exact dropWhile_head_neg hc

theorem pyStrip_idem (l : List Char) : pyStrip (pyStrip l) = pyStrip l := by
  unfold pyStrip
  rw [dropWhile_rstrip (dropWhile_idem isPySpace l), rstrip_idem]

theorem splitAux_isSome_of_mem {c : Char} : ∀ {l : List Char},
    l.contains c = true → ∃ p, splitAux [c] l = some p := by
  intro l
  induction l with
  | nil => intro h; simp at h
  | cons x xs ih =>
      intro h
      rw [splitAux_cons]
      by_cases hx : [c].isPrefixOf (x :: xs) = true
      · exact ⟨([], (x :: xs).drop [c].length), by rw [if_pos hx]⟩
      · have hx' : [c].isPrefixOf (x :: xs) = false := eq_false_of_ne_true hx
        have hcx : (c == x) = false := by
          simpa [List.isPrefixOf] using hx'
        have hxs : xs.contains c = true := by
          have hmem : c ∈ x :: xs := by simpa using h
          rcases List.mem_cons.mp hmem with h1 | h2
          · exact absurd (beq_iff_eq.mpr h1) (by simp [hcx])
          · simpa using h2
        obtain ⟨⟨a, b⟩, hp⟩ := ih hxs
        exact ⟨(x :: a, b), by rw [if_neg hx, hp]⟩

theorem parseYamlLine_ok (coerce : Bool) (acc : List (List Char × YVal)) (l : List Char) :
    ∃ acc2, parseYamlLine coerce acc l = .ok acc2 := by
  unfold parseYamlLine
  by_cases hg : (!(pyStrip l).isEmpty && (pyStrip l).contains ':' &&
      !((chars "#").isPrefixOf (pyStrip l))) = true
  · have hcol : (pyStrip l).contains ':' = true := by
      simp only [Bool.and_eq_true] at hg
      exact hg.1.2
    obtain ⟨⟨a, b⟩, hp⟩ := splitAux_isSome_of_mem hcol
    have hsplit : pySplitN (chars ":") 1 (pyStrip l) = [a, b] := by
      rw [show chars ":" = [':'] from rfl, pySplitN_succ, hp]
      rfl
    rw [if_pos hg, hsplit]
    exact ⟨_, rfl⟩
  · rw [if_neg hg]
    exact ⟨acc, rfl⟩

theorem parseYamlLines_ok (coerce : Bool) : ∀ (ls : List (List Char))
    (acc : List (List Char × YVal)), ∃ fm, parseYamlLines coerce ls acc = .ok fm := by
  intro ls
  induction ls with
  | nil => intro acc; exact ⟨acc, rfl⟩
  | cons l ls ih =>
      intro acc
      obtain ⟨acc2, h2⟩ := parseYamlLine_ok coerce acc l
      obtain ⟨fm, hfm⟩ := ih acc2
      refine ⟨fm, ?_⟩
      rw [parseYamlLines, h2]
      exact hfm

/-- The basic front-matter parser is total: it returns a flat key-value map on
every input and never raises. -/
theorem parseBasicYaml_ok (coerce : Bool) (s : List Char) :
    ∃ fm, parseBasicYaml coerce s = .ok fm :=
  parseYamlLines_ok coerce (pySplitChar '\n' s) []

theorem mem_iou {l : List (List Char × α)} {k : List Char} {v : α} {kv : List Char × α}
    (h : kv ∈ iou l k v) : kv.2 = v ∨ kv ∈ l := by
  unfold iou at h
  by_cases ha : l.any (fun p => p.1 == k) = true
  · rw [if_pos ha] at h
    obtain ⟨p, hp, he⟩ := List.mem_map.mp h
    by_cases hpk : p.1 = k
    · rw [if_pos hpk] at he
      exact Or.inl (by rw [← he])
    · rw [if_neg hpk] at he
      exact Or.inr (he ▸ hp)
  · rw [if_neg ha, List.mem_append] at h
    rcases h with h | h
    · exact Or.inr h
    · simp only [List.mem_singleton] at h
      exact Or.inl (by rw [h])

theorem parseYamlLine_false_strings {acc acc2 : List (List Char × YVal)} {l : List Char}
    (h : parseYamlLine false acc l = .ok acc2)
    (hinv : ∀ kv ∈ acc, ∃ v, kv.2 = YVal.s v) : ∀ kv ∈ acc2, ∃ v, kv.2 = YVal.s v := by
  unfold parseYamlLine at h
  by_cases hg : (!(pyStrip l).isEmpty && (pyStrip l).contains ':' &&
      !((chars "#").isPrefixOf (pyStrip l))) = true
  · rw [if_pos hg] at h
    cases hsp : pySplitN (chars ":") 1 (pyStrip l) with
    | nil => rw [hsp] at h; exact absurd h (by simp)
    | cons k0 rest =>
        cases rest with
        | nil => rw [hsp] at h; exact absurd h (by simp)
        | cons v0 rest2 =>
            cases rest2 with
            | nil =>
                rw [hsp] at h
                simp only [Bool.false_and, Bool.false_eq_true, if_false, Except.ok.injEq] at h
                intro kv hkv
                rw [← h] at hkv
                rcases mem_iou hkv with h1 | h1
                · exact ⟨_, h1⟩
                · exact hinv kv h1
            | cons _ _ => rw [hsp] at h; exact absurd h (by simp)
  · rw [if_neg hg] at h
    simp only [Except.ok.injEq] at h
    exact h ▸ hinv

theorem parseYamlLines_false_strings : ∀ {ls : List (List Char)}
    {acc fm : List (List Char × YVal)},
    parseYamlLines false ls acc = .ok fm →
    (∀ kv ∈ acc, ∃ v, kv.2 = YVal.s v) → ∀ kv ∈ fm, ∃ v, kv.2 = YVal.s v := by
  intro ls
  induction ls with
  | nil =>
      intro acc fm h hinv
      rw [parseYamlLines] at h
      simp only [Except.ok.injEq] at h
      exact h ▸ hinv
  | cons l ls ih =>
      intro acc fm h hinv
      rw [parseYamlLines] at h
      cases h2 : parseYamlLine false acc l with
      | error e => rw [h2] at h; exact absurd h (by simp)
      | ok acc2 =>
          rw [h2] at h
          exact ih h (parseYamlLine_false_strings h2 hinv)

/-- The skill variant of the parser only ever produces string values. -/
theorem parseBasicYaml_false_strings {s : List Char} {fm : List (List Char × YVal)}
    (h : parseBasicYaml false s = .ok fm) : ∀ kv ∈ fm, ∃ v, kv.2 = YVal.s v :=
  parseYamlLines_false_strings h (by intro kv hkv; simp at hkv)

theorem aget_mem {l : List (List Char × α)} {k : List Char} {v : α}
    (h : aget l k = some v) : (k, v) ∈ l := by
  induction l with
  | nil => simp [aget] at h
  | cons p t ih =>
      rw [aget] at h
      by_cases hpk : p.1 = k
      · rw [if_pos hpk] at h
        simp only [Option.some.injEq] at h
        have : (k, v) = p := by
          cases p with
          | mk a b =>
              simp only at hpk h
              rw [← hpk, ← h]
        rw [this]
        exact List.mem_cons_self p t
      · rw [if_neg hpk] at h
        exact List.mem_cons_of_mem p (ih h)

theorem msg_ne_of_take {m1 m2 : List Char} (k : Nat) (h : m1.take k ≠ m2.take k) :
    m1 ≠ m2 := fun he => h (he ▸ rfl)

theorem vres_message (b : Bool) (m : List Char) (s : Severity) : (vres b m s).message = m := rfl

theorem vres_severity (b : Bool) (m : List Char) (s : Severity) : (vres b m s).severity = s := rfl

theorem vres_is_valid (b : Bool) (m : List Char) (s : Severity) : (vres b m s).is_valid = b := rfl

theorem take_first (k : Nat) (a b c : List α) (h : k ≤ a.length) :
    ((a ++ b) ++ c).take k = a.take k := by
  rw [takeAppend k (a ++ b) c (by simp; omega), takeAppend k a b h]

/-- The skill front-matter checks never raise when every value is a string. -/
theorem skillFmChecks_noexc {fm : List (List Char × YVal)}
    (h : ∀ kv ∈ fm, ∃ v, kv.2 = YVal.s v) : (skillFmChecks fm).2 = none := by
  unfold skillFmChecks
  cases hd : aget fm (chars "description") with
  | none => rfl
  | some yv =>
      obtain ⟨v, hv⟩ := h _ (aget_mem hd)
      simp only at hv
      rw [hv]

theorem skillValidateToolNames_shapes {ts : List (List Char)} {r : ValidationResult}
    (hr : r ∈ skillValidateToolNames ts) :
    ∃ t, r = vres false (chars "Unknown tool in allowed-tools: " ++ t) .warning := by
  unfold skillValidateToolNames at hr
  obtain ⟨t0, _, hin⟩ := mem_collectMap.mp hr
  simp at hin
  exact ⟨pyStrip t0, hin.2⟩

theorem skillFmChecks_shapes {fm : List (List Char × YVal)} {r : ValidationResult}
    (hr : r ∈ (skillFmChecks fm).1) :
    (∃ fld, fld ∈ SKILL_REQUIRED_FIELDS ∧
      (r = vres false (chars "Missing required frontmatter field: " ++ fld) .error ∨
       r = vres false (chars "Frontmatter field '" ++ fld ++ chars "' must be a string")
             .error)) ∨
    (∃ f, r = vres false (chars "Unknown frontmatter field: " ++ f) .warning) ∨
    (∃ t, r = vres false (chars "Unknown tool in allowed-tools: " ++ t) .warning) ∨
    r = vres false (chars "allowed-tools must be a string or list") .error ∨
    r = vres false (chars "Description should be more descriptive (at least 10 characters)")
          .warning ∨
    r = vres false (chars "Description should include when to use the skill") .warning := by
  unfold skillFmChecks at hr
  simp only at hr
  rcases List.mem_append.mp hr with h1 | hdesc
  · rcases List.mem_append.mp h1 with h2 | htools
    · rcases List.mem_append.mp h2 with hreq | hunk
      · obtain ⟨fld, hfld, hin⟩ := mem_collectMap.mp hreq
        left
        refine ⟨fld, hfld, ?_⟩
        split at hin
        · simp only [List.mem_singleton] at hin
          exact Or.inl hin
        · simp at hin
        · simp only [List.mem_singleton] at hin
          exact Or.inr hin
      · obtain ⟨p, _, hin⟩ := mem_collectMap.mp hunk
        split at hin
        · simp at hin
        · simp only [List.mem_singleton] at hin
          exact Or.inr (Or.inl ⟨p.1, hin⟩)
    · split at htools
      · simp at htools
      · obtain ⟨t, ht⟩ := skillValidateToolNames_shapes htools
        exact Or.inr (Or.inr (Or.inl ⟨t, ht⟩))
      · simp only [List.mem_singleton] at htools
        exact Or.inr (Or.inr (Or.inr (Or.inl htools)))
  · split at hdesc
    · split at hdesc
      · simp only [List.mem_singleton] at hdesc
        exact Or.inr (Or.inr (Or.inr (Or.inr (Or.inl hdesc))))
      · split at hdesc
        · simp only [List.mem_singleton] at hdesc
          exact Or.inr (Or.inr (Or.inr (Or.inr (Or.inr hdesc))))
        · simp at hdesc
    · simp at hdesc
    · simp at hdesc

theorem skillMdChecks_shapes {content : List Char} {r : ValidationResult}
    (hr : r ∈ skillMdChecks content) :
    r = vres false (chars "SKILL.md cannot be empty after frontmatter") .error ∨
    r = vres false (chars "SKILL.md should have a main heading (# Skill Name)") .warning ∨
    r = vres false (chars "Consider adding an Instructions section") .info ∨
    r = vres false (chars "Consider adding an Examples section") .info ∨
    (∃ p, r = vres true (chars "Found relative file reference: " ++ p) .info) := by
  unfold skillMdChecks at hr
  split at hr
  · simp only [List.mem_singleton] at hr
    exact Or.inl hr
  · rcases List.mem_append.mp hr with h1 | h2
    · rcases List.mem_append.mp h1 with h3 | h4
      · rcases List.mem_append.mp h3 with h5 | h6
        · split at h5
          · simp at h5
          · simp only [List.mem_singleton] at h5
            exact Or.inr (Or.inl h5)
        · split at h6
          · simp at h6
          · simp only [List.mem_singleton] at h6
            exact Or.inr (Or.inr (Or.inl h6))
      · split at h4
        · simp at h4
        · simp only [List.mem_singleton] at h4
          exact Or.inr (Or.inr (Or.inr (Or.inl h4)))
    · obtain ⟨p, _, hin⟩ := mem_collectMap.mp h2
      split at hin
      · simp only [List.mem_singleton] at hin
        exact Or.inr (Or.inr (Or.inr (Or.inr ⟨p.2, hin⟩)))
      · simp at hin

/-- Reduction equation for `skillValidate` on a well-formed document whose
front-matter checks do not raise. -/
theorem skillValidate_ok {content fmStr mdStr : List Char} {fm : List (List Char × YVal)}
    {rs : List ValidationResult}
    (hex : fmExtract content = .extracted fmStr mdStr)
    (hfm : parseBasicYaml false fmStr = .ok fm)
    (hsc : skillFmChecks fm = (rs, none)) :
    skillValidate content = rs ++ skillMdChecks mdStr := by
  unfold skillValidate
  rw [hex]
  show (match parseBasicYaml false fmStr with
    | Except.error e =>
        [vres false (chars "Invalid frontmatter: " ++ pyErrMsg e ++
           chars ". Install PyYAML for better validation") Severity.error]
    | Except.ok fm =>
        match skillFmChecks fm with
        | (rs, some e) =>
            rs ++ [vres false (chars "Error parsing SKILL.md: " ++ pyErrMsg e) Severity.error]
        | (rs, none) => rs ++ skillMdChecks mdStr) = rs ++ skillMdChecks mdStr
  rw [hfm]
  show (match skillFmChecks fm with
    | (rs, some e) =>
        rs ++ [vres false (chars "Error parsing SKILL.md: " ++ pyErrMsg e) Severity.error]
    | (rs, none) => rs ++ skillMdChecks mdStr) = rs ++ skillMdChecks mdStr
  rw [hsc]

/-- Every diagnostic the skill validator can emit, by shape.  The "Invalid
frontmatter" and "Error parsing SKILL.md" branches are excluded here because
the basic parser is total and only produces strings. -/
theorem skillValidate_shapes {content : List Char} {r : ValidationResult}
    (hr : r ∈ skillValidate content) :
    r = vres false (chars "SKILL.md must start with YAML frontmatter (---)") .error ∨
    r = vres false (chars "Missing closing frontmatter delimiter (---)") .error ∨
    (∃ fld, fld ∈ SKILL_REQUIRED_FIELDS ∧
      (r = vres false (chars "Missing required frontmatter field: " ++ fld) .error ∨
       r = vres false (chars "Frontmatter field '" ++ fld ++ chars "' must be a string")
             .error)) ∨
    (∃ f, r = vres false (chars "Unknown frontmatter field: " ++ f) .warning) ∨
    (∃ t, r = vres false (chars "Unknown tool in allowed-tools: " ++ t) .warning) ∨
    r = vres false (chars "allowed-tools must be a string or list") .error ∨
    r = vres false (chars "Description should be more descriptive (at least 10 characters)")
          .warning ∨
    r = vres false (chars "Description should include when to use the skill") .warning ∨
    r = vres false (chars "SKILL.md cannot be empty after frontmatter") .error ∨
    r = vres false (chars "SKILL.md should have a main heading (# Skill Name)") .warning ∨
    r = vres false (chars "Consider adding an Instructions section") .info ∨
    r = vres false (chars "Consider adding an Examples section") .info ∨
    (∃ p, r = vres true (chars "Found relative file reference: " ++ p) .info) := by
  cases hex : fmExtract content with
  | noStart =>
      unfold skillValidate at hr
      rw [hex] at hr
      have hr2 : r ∈ [vres false (chars "SKILL.md must start with YAML frontmatter (---)")
        Severity.error] := hr
      simp only [List.mem_singleton] at hr2
      exact Or.inl hr2
  | noClose =>
      unfold skillValidate at hr
      rw [hex] at hr
      have hr2 : r ∈ [vres false (chars "Missing closing frontmatter delimiter (---)")
        Severity.error] := hr
      simp only [List.mem_singleton] at hr2
      exact Or.inr (Or.inl hr2)
  | extracted fmStr mdStr =>
      obtain ⟨fm, hfm⟩ := parseBasicYaml_ok false fmStr
      have hno : (skillFmChecks fm).2 = none :=
        skillFmChecks_noexc (parseBasicYaml_false_strings hfm)
      have hsc : skillFmChecks fm = ((skillFmChecks fm).1, none) := by
        rw [← hno]
      rw [skillValidate_ok hex hfm hsc] at hr
      rcases List.mem_append.mp hr with h1 | h2
      · rcases skillFmChecks_shapes h1 with h | h | h | h | h | h
        · exact Or.inr (Or.inr (.inl h))
        · exact Or.inr (Or.inr (Or.inr (.inl h)))
        · exact Or.inr (Or.inr (Or.inr (Or.inr (.inl h))))
        · exact Or.inr (Or.inr (Or.inr (Or.inr (Or.inr (.inl h)))))
        · exact Or.inr (Or.inr (Or.inr (Or.inr (Or.inr (Or.inr (.inl h))))))
        · exact Or.inr (Or.inr (Or.inr (Or.inr (Or.inr (Or.inr (Or.inr (.inl h)))))))
      · rcases skillMdChecks_shapes h2 with h | h | h | h | h
        · exact Or.inr (Or.inr (Or.inr (Or.inr (Or.inr (Or.inr (Or.inr (Or.inr (.inl h))))))))
        · exact Or.inr (Or.inr (Or.inr (Or.inr (Or.inr (Or.inr (Or.inr (Or.inr (Or.inr
            (.inl h)))))))))
        · exact Or.inr (Or.inr (Or.inr (Or.inr (Or.inr (Or.inr (Or.inr (Or.inr (Or.inr
            (Or.inr (.inl h))))))))))
        · exact Or.inr (Or.inr (Or.inr (Or.inr (Or.inr (Or.inr (Or.inr (Or.inr (Or.inr
            (Or.inr (Or.inr (.inl h)))))))))))
        · exact Or.inr (Or.inr (Or.inr (Or.inr (Or.inr (Or.inr (Or.inr (Or.inr (Or.inr
            (Or.inr (Or.inr (Or.inr h)))))))))))

/-- C10: the basic front-matter parser is total — on every input it returns a
flat string-keyed map and never raises — so the skill validator's "Invalid
frontmatter" Error branch and its "Frontmatter must be a YAML object" Error
branch are unreachable: no skill validation output ever carries either
message. -/
theorem c10_parser_total_unreachable_branches :
    (∀ s : List Char, ∃ fm, parseBasicYaml false s = Except.ok fm) ∧
    (∀ (content : List Char) (r : ValidationResult), r ∈ skillValidate content →
      (chars "Invalid frontmatter").isPrefixOf r.message = false ∧
      r.message ≠ chars "Frontmatter must be a YAML object") := by
  refine ⟨parseBasicYaml_ok false, ?_⟩
  intro content r hr
  rcases skillValidate_shapes hr with h|h|⟨fld,_,h|h⟩|⟨f,h⟩|⟨t,h⟩|h|h|h|h|h|h|h|⟨p,h⟩ <;>
    subst h
  · exact ⟨by decide, by decide⟩
  · exact ⟨by decide, by decide⟩
  · exact ⟨notPrefixOfTake _ _ 1 (by decide)
        (by rw [vres_message, takeAppend 1 (chars "Missing required frontmatter field: ") fld
              (by decide)]
            decide),
      msg_ne_of_take 1
        (by rw [vres_message, takeAppend 1 (chars "Missing required frontmatter field: ") fld
              (by decide)]
            decide)⟩
  · exact ⟨notPrefixOfTake _ _ 1 (by decide)
        (by rw [vres_message, take_first 1 (chars "Frontmatter field '") fld _ (by decide)]
            decide),
      msg_ne_of_take 13
        (by rw [vres_message, take_first 13 (chars "Frontmatter field '") fld _ (by decide)]
            decide)⟩
  · exact ⟨notPrefixOfTake _ _ 1 (by decide)
        (by rw [vres_message, takeAppend 1 (chars "Unknown frontmatter field: ") f (by decide)]; decide),
      msg_ne_of_take 1
        (by rw [vres_message, takeAppend 1 (chars "Unknown frontmatter field: ") f (by decide)]; decide)⟩
  · exact ⟨notPrefixOfTake _ _ 1 (by decide)
        (by rw [vres_message, takeAppend 1 (chars "Unknown tool in allowed-tools: ") t (by decide)]; decide),
      msg_ne_of_take 1
        (by rw [vres_message, takeAppend 1 (chars "Unknown tool in allowed-tools: ") t (by decide)]; decide)⟩
  · exact ⟨by decide, by decide⟩
  · exact ⟨by decide, by decide⟩
  · exact ⟨by decide, by decide⟩
  · exact ⟨by decide, by decide⟩
  · exact ⟨by decide, by decide⟩
  · exact ⟨by decide, by decide⟩
  · exact ⟨by decide, by decide⟩
  · exact ⟨notPrefixOfTake _ _ 1 (by decide)
        (by rw [vres_message, takeAppend 1 (chars "Found relative file reference: ") p
              (by decide)]
            decide),
      msg_ne_of_take 2
        (by rw [vres_message, takeAppend 2 (chars "Found relative file reference: ") p
              (by decide)]
            decide)⟩

theorem c10_parser_total_unreachable_branches_witness :
    (chars "Invalid frontmatter").isPrefixOf
      (vres false (chars "SKILL.md must start with YAML frontmatter (---)")
        Severity.error).message = false ∧
    (vres false (chars "SKILL.md must start with YAML frontmatter (---)")
      Severity.error).message ≠ chars "Frontmatter must be a YAML object" :=
  c10_parser_total_unreachable_branches.2 (chars "x") _ (by decide)

/-- C5: an event name outside the fixed nine-event set yields exactly one
Error-severity diagnostic naming the event, and the event's binding list is not
examined — the output is the same singleton for every binding value `v`. -/
theorem c5_invalid_event_single_error (event : List Char) (v : Json)
    (h : HOOKS_VALID_EVENTS.contains event = false) :
    hooksValidateEvent event v =
      [vres false (chars "Invalid event name '" ++ event ++ chars "'. Valid events: " ++
         HOOKS_EVENTS_SORTED) .error] := by
  unfold hooksValidateEvent
  rw [h]
  rfl

theorem c5_invalid_event_single_error_witness :
    HOOKS_VALID_EVENTS.contains (chars "BadEvent") = false ∧
    hooksValidateEvent (chars "BadEvent") (.arr [.str (chars "x")]) =
      [vres false (chars "Invalid event name '" ++ chars "BadEvent" ++
         chars "'. Valid events: " ++ HOOKS_EVENTS_SORTED) .error] :=
  ⟨by decide, c5_invalid_event_single_error (chars "BadEvent") (.arr [.str (chars "x")])
    (by decide)⟩

/-- C1 (code bug): a plugin directory that lacks `README.md` makes
`validate_plugin_structure` raise `TypeError` — `errors.append(ValidationError(...),
"warning")` passes two arguments to `list.append` — instead of returning
normally with a Warning diagnostic; the same directory with `README.md`
present validates cleanly. -/
theorem c1_missing_readme_raises :
    validate_plugin_structure
      ⟨[([chars "my-plugin"], true), ([chars "my-plugin", chars ".claude-plugin"], true)]⟩
      [chars "my-plugin"] =
      Except.error (.typeError (chars "list.append() takes exactly one argument (2 given)")) ∧
    validate_plugin_structure
      ⟨[([chars "my-plugin"], true), ([chars "my-plugin", chars ".claude-plugin"], true),
        ([chars "my-plugin", chars "README.md"], false)]⟩
      [chars "my-plugin"] = Except.ok [] := by
  decide

/-- C3 (counterexample): a hook-registry document whose opening-marker count
(one occurrence of the marker `{{`, inside its only command string) differs
from its closing-marker count (zero occurrences of `}}`) is validated with no
diagnostic at all — in particular no Error whose message embeds the two
counts — because the hooks validator performs no marker-balance scan. -/
theorem c3_no_balance_error_counterexample :
    countSub (chars "echo \x7b\x7b") (chars "\x7b\x7b") = 1 ∧
    countSub (chars "echo \x7b\x7b") (chars "\x7d\x7d") = 0 ∧
    hooksValidate (hookDocWithCommand (chars "echo \x7b\x7b")) = [] := by
  decide

/-- C4 (counterexample): a hook configuration carrying the unrecognized field
`unknown_field` yields no diagnostic whatsoever — the hooks validator ignores
fields outside its schema rather than emitting the claimed Warning. -/
theorem c4_hooks_ignore_unknown_fields :
    hooksValidate (.obj [(chars "hooks", .obj [(chars "PreToolUse", .arr [.obj
      [(chars "unknown_field", .str (chars "x")),
       (chars "hooks", .arr [.obj [(chars "type", .str (chars "command")),
        (chars "command", .str (chars "echo hi"))]])]])])]) = [] := by
  decide

/-- C7 (counterexample): a registry entry whose source is the relative-path
string "plugins/ghost" — which resolves to no existing directory — produces
zero Errors from source cross-referencing: the code only examines string
sources that start with "./". -/
theorem c7_relative_source_without_dot_skipped :
    validate_plugin_sources ⟨[]⟩ [chars "plugins"] (chars ".claude-plugin/marketplace.json")
      (.obj [(chars "plugins", .arr [.obj [(chars "name", .str (chars "my-plugin")),
        (chars "source", .str (chars "plugins/ghost"))]])]) = .ok [] := by
  decide

/-- C8 (counterexample): on a document whose second line contains `---` inside
the line, the code's extractor cuts the header at that inline substring, while
the spec's delimiter-line rule keeps the whole line (and the following one) in
the header; the two extractors disagree. -/
theorem c8_substring_split_counterexample :
    fmHeaderCode (chars "---\nname: a --- b\ndescription: use when doing x\n---\n# T") =
      some (chars "name: a") ∧
    fmHeaderSpecLine (chars "---\nname: a --- b\ndescription: use when doing x\n---\n# T") =
      some (chars "name: a --- b\ndescription: use when doing x") ∧
    fmHeaderCode (chars "---\nname: a --- b\ndescription: use when doing x\n---\n# T") ≠
      fmHeaderSpecLine (chars "---\nname: a --- b\ndescription: use when doing x\n---\n# T") := by
  decide

/-- C3 (amended): the hooks validator performs no template-marker balance
check at all — a hook-registry document that is otherwise schema-valid yields
no diagnostics whatever the mismatch between its `{{` and `}}` counts.  The
side conditions only rule out the command checks that do exist (non-blank
command, no watched environment variable). -/
theorem c3_no_balance_scan (cmd : List Char)
    (_hmis : countSub cmd (chars "\x7b\x7b") ≠ countSub cmd (chars "\x7d\x7d"))
    (hne : (pyStrip cmd).isEmpty = false)
    (henv : containsSub cmd (chars "$CLAUDE_PROJECT_DIR") = false) :
    hooksValidate (hookDocWithCommand cmd) = [] := by
  simp +decide [hooksValidate, hookDocWithCommand, hooksValidateEvent, hooksValidateHookConfig,
    hooksMatcherField, hooksBindings, hooksValidateSingleHook, hooksCommandCheck,
    hooksTimeoutCheck, hooksCommandInfo, hooksValidateMatcher, aget, collectIdx, collectMap,
    hne, henv]

theorem c3_no_balance_scan_witness :
    (countSub (chars "run \x7b\x7b x") (chars "\x7b\x7b") ≠
      countSub (chars "run \x7b\x7b x") (chars "\x7d\x7d")) ∧
    hooksValidate (hookDocWithCommand (chars "run \x7b\x7b x")) = [] :=
  ⟨by decide, c3_no_balance_scan (chars "run \x7b\x7b x") (by decide) (by decide) (by decide)⟩

/-- C7 (amended): for a registry entry whose source is a local string starting
with "./", source cross-referencing yields exactly one Error-severity
diagnostic whose message embeds the entry's declared name when the resolved
path does not exist, and likewise exactly one such Error when the path exists
but the `.claude-plugin/plugin.json` manifest sub-path is missing. -/
theorem c7_local_dot_source_errors (plugins_dir : List (List Char)) (mpath : List Char)
    (fl : List (List Char × Json)) (n s : List Char)
    (hn : aget fl (chars "name") = some (.str n))
    (hs : aget fl (chars "source") = some (.str s))
    (hdot : (chars "./").isPrefixOf s = true) :
    (∀ fs : FS, fs.hasPath (pathJoinStr plugins_dir.dropLast s) = false →
      validateSourceEntry fs plugins_dir mpath (.obj fl) =
        .ok [⟨mpath, chars "Plugin '" ++ n ++ chars "' source path does not exist: " ++ s,
          .error⟩]) ∧
    (∀ fs : FS, fs.hasPath (pathJoinStr plugins_dir.dropLast s) = true →
      fs.hasPath (pathJoinStr plugins_dir.dropLast s ++
        [chars ".claude-plugin", chars "plugin.json"]) = false →
      validateSourceEntry fs plugins_dir mpath (.obj fl) =
        .ok [⟨mpath, chars "Plugin '" ++ n ++ chars "' missing plugin.json at: " ++ s,
          .error⟩]) := by
  have hred : ∀ fs : FS, validateSourceEntry fs plugins_dir mpath (.obj fl) =
      sourceEntryChecks fs plugins_dir mpath n (.str s) := by
    intro fs
    unfold validateSourceEntry
    show sourceEntryChecks fs plugins_dir mpath
        (jsonToPyStr ((aget fl (chars "name")).getD (Json.str (chars "unknown"))))
        ((aget fl (chars "source")).getD (Json.str [])) =
      sourceEntryChecks fs plugins_dir mpath n (Json.str s)
    rw [hn, hs]
    rfl
  have hred2 : ∀ fs : FS, sourceEntryChecks fs plugins_dir mpath n (.str s) =
      (if (chars "./").isPrefixOf s = true then
        (if (!fs.hasPath (pathJoinStr plugins_dir.dropLast s)) = true then
          Except.ok [⟨mpath, chars "Plugin '" ++ n ++
            chars "' source path does not exist: " ++ s, Severity.error⟩]
        else if (!fs.hasPath (pathJoinStr plugins_dir.dropLast s ++
            [chars ".claude-plugin", chars "plugin.json"])) = true then
          Except.ok [⟨mpath, chars "Plugin '" ++ n ++
            chars "' missing plugin.json at: " ++ s, Severity.error⟩]
        else Except.ok [])
      else Except.ok []) := by
    intro fs
    rfl
  constructor
  · intro fs hmiss
    rw [hred fs, hred2 fs, if_pos hdot, hmiss]
    rfl
  · intro fs hhit hmanifest
    rw [hred fs, hred2 fs, if_pos hdot, hhit, hmanifest]
    rfl

theorem c7_local_dot_source_errors_witness :
    (validateSourceEntry ⟨[]⟩ [chars "plugins"] (chars "mp.json")
      (.obj [(chars "name", .str (chars "my-plugin")),
             (chars "source", .str (chars "./plugins/ghost"))]) =
      .ok [⟨chars "mp.json", chars "Plugin '" ++ chars "my-plugin" ++
        chars "' source path does not exist: " ++ chars "./plugins/ghost", .error⟩]) ∧
    (validateSourceEntry ⟨[([chars "plugins", chars "ghost"], true)]⟩ [chars "plugins"]
      (chars "mp.json")
      (.obj [(chars "name", .str (chars "my-plugin")),
             (chars "source", .str (chars "./plugins/ghost"))]) =
      .ok [⟨chars "mp.json", chars "Plugin '" ++ chars "my-plugin" ++
        chars "' missing plugin.json at: " ++ chars "./plugins/ghost", .error⟩]) :=
  ⟨(c7_local_dot_source_errors [chars "plugins"] (chars "mp.json")
      [(chars "name", .str (chars "my-plugin")),
       (chars "source", .str (chars "./plugins/ghost"))]
      (chars "my-plugin") (chars "./plugins/ghost")
      (by rfl) (by rfl) (by decide)).1 ⟨[]⟩ (by decide),
   (c7_local_dot_source_errors [chars "plugins"] (chars "mp.json")
      [(chars "name", .str (chars "my-plugin")),
       (chars "source", .str (chars "./plugins/ghost"))]
      (chars "my-plugin") (chars "./plugins/ghost")
      (by rfl) (by rfl) (by decide)).2
     ⟨[([chars "plugins", chars "ghost"], true)]⟩ (by decide) (by decide)⟩

theorem take_first3 (k : Nat) (a b c d : List α) (h : k ≤ a.length) :
    ((((a ++ b) ++ c) ++ d)).take k = a.take k := by
  rw [takeAppend k _ d (by simp [List.length_append]; omega), take_first k a b c h]

theorem not_mm_closed {msg : List Char}
    (h1 : msg ≠ chars "Matcher must be a string")
    (h2 : (chars "Invalid matcher '").isPrefixOf msg = false) :
    ¬(msg = chars "Matcher must be a string" ∨
      (chars "Invalid matcher '").isPrefixOf msg = true) := by
  rintro (h | h)
  · exact h1 h
  · rw [h2] at h
    exact Bool.false_ne_true h

theorem not_mm_left1 (a x : List Char) (k : Nat) (hk1 : k ≤ a.length) (hk3 : k ≤ (chars "Invalid matcher '").length)
    (h1 : a.take k ≠ (chars "Matcher must be a string").take k)
    (h2 : (chars "Invalid matcher '").take k ≠ a.take k) :
    ¬((a ++ x) = chars "Matcher must be a string" ∨
      (chars "Invalid matcher '").isPrefixOf (a ++ x) = true) := by
  rintro (h | h)
  · exact msg_ne_of_take k (by rw [takeAppend k a x hk1]; exact h1) h
  · rw [notPrefixOfTake _ _ k hk3 (by rw [takeAppend k a x hk1]; exact h2)] at h
    exact Bool.false_ne_true h

theorem not_mm_left2 (a x b : List Char) (k : Nat) (hk1 : k ≤ a.length) (hk3 : k ≤ (chars "Invalid matcher '").length)
    (h1 : a.take k ≠ (chars "Matcher must be a string").take k)
    (h2 : (chars "Invalid matcher '").take k ≠ a.take k) :
    ¬(((a ++ x) ++ b) = chars "Matcher must be a string" ∨
      (chars "Invalid matcher '").isPrefixOf ((a ++ x) ++ b) = true) := by
  rintro (h | h)
  · exact msg_ne_of_take k (by rw [take_first k a x b hk1]; exact h1) h
  · rw [notPrefixOfTake _ _ k hk3 (by rw [take_first k a x b hk1]; exact h2)] at h
    exact Bool.false_ne_true h

theorem not_mm_left3 (a x b c : List Char) (k : Nat) (hk1 : k ≤ a.length) (hk3 : k ≤ (chars "Invalid matcher '").length)
    (h1 : a.take k ≠ (chars "Matcher must be a string").take k)
    (h2 : (chars "Invalid matcher '").take k ≠ a.take k) :
    ¬((((a ++ x) ++ b) ++ c) = chars "Matcher must be a string" ∨
      (chars "Invalid matcher '").isPrefixOf (((a ++ x) ++ b) ++ c) = true) := by
  rintro (h | h)
  · exact msg_ne_of_take k (by rw [take_first3 k a x b c hk1]; exact h1) h
  · rw [notPrefixOfTake _ _ k hk3 (by rw [take_first3 k a x b c hk1]; exact h2)] at h
    exact Bool.false_ne_true h

theorem hooksValidateMatcher_warning {event m : List Char} {r : ValidationResult}
    (hr : r ∈ hooksValidateMatcher event m) : r.severity = Severity.warning := by
  unfold hooksValidateMatcher at hr
  split at hr
  · simp only [List.mem_singleton] at hr
    rw [hr]
    rfl
  · split at hr
    · simp only [List.mem_singleton] at hr
      rw [hr]
      rfl
    · simp at hr

theorem isMM_false_of_not {m : List Char}
    (h : ¬(m = chars "Matcher must be a string" ∨
      (chars "Invalid matcher '").isPrefixOf m = true)) :
    isMatcherMsg m = false := by
  push_neg at h
  unfold isMatcherMsg
  rw [Bool.or_eq_false_iff]
  exact ⟨beq_eq_false_iff_ne.mpr h.1, Bool.eq_false_iff.mpr h.2⟩

theorem isMM_app1 (a x : List Char) (k : Nat) (hk1 : k ≤ a.length)
    (hk3 : k ≤ (chars "Invalid matcher '").length)
    (h1 : a.take k ≠ (chars "Matcher must be a string").take k)
    (h2 : (chars "Invalid matcher '").take k ≠ a.take k) :
    isMatcherMsg (a ++ x) = false :=
  isMM_false_of_not (not_mm_left1 a x k hk1 hk3 h1 h2)

theorem isMM_app2 (a x b : List Char) (k : Nat) (hk1 : k ≤ a.length)
    (hk3 : k ≤ (chars "Invalid matcher '").length)
    (h1 : a.take k ≠ (chars "Matcher must be a string").take k)
    (h2 : (chars "Invalid matcher '").take k ≠ a.take k) :
    isMatcherMsg ((a ++ x) ++ b) = false :=
  isMM_false_of_not (not_mm_left2 a x b k hk1 hk3 h1 h2)

theorem isMM_app3 (a x b c : List Char) (k : Nat) (hk1 : k ≤ a.length)
    (hk3 : k ≤ (chars "Invalid matcher '").length)
    (h1 : a.take k ≠ (chars "Matcher must be a string").take k)
    (h2 : (chars "Invalid matcher '").take k ≠ a.take k) :
    isMatcherMsg (((a ++ x) ++ b) ++ c) = false :=
  isMM_false_of_not (not_mm_left3 a x b c k hk1 hk3 h1 h2)

theorem mm_of_single {r x : ValidationResult} (h : r ∈ [x])
    (hx : isMatcherMsg x.message = false) : isMatcherMsg r.message = false := by
  rw [List.mem_singleton.mp h]
  exact hx

theorem sev_of_single {r x : ValidationResult} (h : r ∈ [x]) : r.severity = x.severity := by
  rw [List.mem_singleton.mp h]

theorem not_mm_timeout (j : Nat) :
    isMatcherMsg (chars "Timeout must be a positive number in hook at index " ++ natStr j) =
      false :=
  isMM_app1 _ _ 1 (by decide) (by decide) (by decide) (by decide)

theorem not_mm_missing_command (j : Nat) :
    isMatcherMsg (chars "Missing 'command' field in hook at index " ++ natStr j) = false :=
  isMM_app1 _ _ 2 (by decide) (by decide) (by decide) (by decide)

theorem not_mm_empty_command (j : Nat) :
    isMatcherMsg (chars "Command cannot be empty in hook at index " ++ natStr j) = false :=
  isMM_app1 _ _ 1 (by decide) (by decide) (by decide) (by decide)

theorem not_mm_command_not_string (j : Nat) :
    isMatcherMsg (chars "Command must be a string in hook at index " ++ natStr j) = false :=
  isMM_app1 _ _ 1 (by decide) (by decide) (by decide) (by decide)

theorem not_mm_missing_type (j : Nat) :
    isMatcherMsg (chars "Missing 'type' field in hook at index " ++ natStr j) = false :=
  isMM_app1 _ _ 2 (by decide) (by decide) (by decide) (by decide)

theorem not_mm_invalid_type (x : List Char) :
    isMatcherMsg (chars "Invalid hook type '" ++ x ++
      chars "'. Only 'command' is supported") = false :=
  isMM_app2 _ _ _ 9 (by decide) (by decide) (by decide) (by decide)

theorem not_mm_hook_obj (j : Nat) :
    isMatcherMsg (chars "Hook at index " ++ natStr j ++ chars " must be a JSON object") =
      false :=
  isMM_app2 _ _ _ 1 (by decide) (by decide) (by decide) (by decide)

theorem not_mm_missing_hooks (i : Nat) :
    isMatcherMsg (chars "Missing 'hooks' field in hook configuration at index " ++ natStr i) =
      false :=
  isMM_app1 _ _ 2 (by decide) (by decide) (by decide) (by decide)

theorem not_mm_hooks_list (i : Nat) :
    isMatcherMsg (chars "Hooks field must be a list in hook configuration at index " ++
      natStr i) = false :=
  isMM_app1 _ _ 1 (by decide) (by decide) (by decide) (by decide)

theorem not_mm_config_obj (i : Nat) :
    isMatcherMsg (chars "Hook configuration at index " ++ natStr i ++
      chars " must be a JSON object") = false :=
  isMM_app2 _ _ _ 1 (by decide) (by decide) (by decide) (by decide)

theorem not_mm_invalid_event (e : List Char) :
    isMatcherMsg (chars "Invalid event name '" ++ e ++ chars "'. Valid events: " ++
      HOOKS_EVENTS_SORTED) = false :=
  isMM_app3 _ _ _ _ 9 (by decide) (by decide) (by decide) (by decide)

theorem not_mm_event_list (e : List Char) :
    isMatcherMsg (chars "Event '" ++ e ++ chars "' must be a list") = false :=
  isMM_app2 _ _ _ 1 (by decide) (by decide) (by decide) (by decide)

theorem hooksTimeoutCheck_not_mm {fl : List (List Char × Json)} {j : Nat}
    {r : ValidationResult} (hr : r ∈ hooksTimeoutCheck fl j) :
    isMatcherMsg r.message = false := by
  unfold hooksTimeoutCheck at hr
  cases ht : aget fl (chars "timeout") with
  | none =>
      rw [ht] at hr
      exact absurd hr (List.not_mem_nil r)
  | some v =>
      rw [ht] at hr
      cases v with
      | num n =>
          have hr2 : r ∈ (if n ≤ 0 then
              [vres false (chars "Timeout must be a positive number in hook at index " ++
                natStr j) Severity.error] else []) := hr
          split at hr2
          · exact mm_of_single hr2 (not_mm_timeout j)
          · exact absurd hr2 (List.not_mem_nil r)
      | bool b =>
          have hr2 : r ∈ (if b = false then
              [vres false (chars "Timeout must be a positive number in hook at index " ++
                natStr j) Severity.error] else []) := hr
          split at hr2
          · exact mm_of_single hr2 (not_mm_timeout j)
          · exact absurd hr2 (List.not_mem_nil r)
      | null => exact mm_of_single hr (not_mm_timeout j)
      | str s => exact mm_of_single hr (not_mm_timeout j)
      | arr xs => exact mm_of_single hr (not_mm_timeout j)
      | obj fs => exact mm_of_single hr (not_mm_timeout j)

theorem hooksCommandInfo_not_mm {event cmd : List Char} {r : ValidationResult}
    (hr : r ∈ hooksCommandInfo event cmd) : isMatcherMsg r.message = false := by
  unfold hooksCommandInfo at hr
  rcases List.mem_append.mp hr with h | h <;>
    split at h <;>
      first
        | exact mm_of_single h (by decide)
        | exact absurd h (List.not_mem_nil r)

theorem hooksCommandCheck_not_mm {event : List Char} {fl : List (List Char × Json)} {j : Nat}
    {r : ValidationResult} (hr : r ∈ hooksCommandCheck event fl j) :
    isMatcherMsg r.message = false := by
  unfold hooksCommandCheck at hr
  cases hc : aget fl (chars "command") with
  | none =>
      rw [hc] at hr
      exact mm_of_single hr (not_mm_missing_command j)
  | some v =>
      rw [hc] at hr
      cases v with
      | str cmd =>
          have hr2 : r ∈ (if (pyStrip cmd).isEmpty then
              [vres false (chars "Command cannot be empty in hook at index " ++ natStr j)
                Severity.error]
            else hooksTimeoutCheck fl j ++ hooksCommandInfo event cmd) := hr
          split at hr2
          · exact mm_of_single hr2 (not_mm_empty_command j)
          · rcases List.mem_append.mp hr2 with h | h
            · exact hooksTimeoutCheck_not_mm h
            · exact hooksCommandInfo_not_mm h
      | null => exact mm_of_single hr (not_mm_command_not_string j)
      | bool b => exact mm_of_single hr (not_mm_command_not_string j)
      | num n => exact mm_of_single hr (not_mm_command_not_string j)
      | arr xs => exact mm_of_single hr (not_mm_command_not_string j)
      | obj fs => exact mm_of_single hr (not_mm_command_not_string j)

theorem hooksSingleHook_not_mm {event : List Char} {hook : Json} {j : Nat}
    {r : ValidationResult} (hr : r ∈ hooksValidateSingleHook event hook j) :
    isMatcherMsg r.message = false := by
  unfold hooksValidateSingleHook at hr
  cases hook with
  | obj fl =>
      have hr0 : r ∈ (match aget fl (chars "type") with
        | none => [vres false (chars "Missing 'type' field in hook at index " ++ natStr j)
                    Severity.error]
        | some (Json.str tc) =>
            if tc = chars "command" then hooksCommandCheck event fl j
            else [vres false (chars "Invalid hook type '" ++ tc ++
              chars "'. Only 'command' is supported") Severity.error]
        | some t =>
            [vres false (chars "Invalid hook type '" ++ jsonToPyStr t ++
              chars "'. Only 'command' is supported") Severity.error]) := hr
      cases ht : aget fl (chars "type") with
      | none =>
          rw [ht] at hr0
          exact mm_of_single hr0 (not_mm_missing_type j)
      | some t =>
          rw [ht] at hr0
          cases t with
          | str tc =>
              have hr2 : r ∈ (if tc = chars "command" then hooksCommandCheck event fl j
                else [vres false (chars "Invalid hook type '" ++ tc ++
                  chars "'. Only 'command' is supported") Severity.error]) := hr0
              split at hr2
              · exact hooksCommandCheck_not_mm hr2
              · exact mm_of_single hr2 (not_mm_invalid_type tc)
          | null => exact mm_of_single hr0 (not_mm_invalid_type _)
          | bool b => exact mm_of_single hr0 (not_mm_invalid_type _)
          | num n => exact mm_of_single hr0 (not_mm_invalid_type _)
          | arr xs => exact mm_of_single hr0 (not_mm_invalid_type _)
          | obj fs => exact mm_of_single hr0 (not_mm_invalid_type _)
  | null => exact mm_of_single hr (not_mm_hook_obj j)
  | bool b => exact mm_of_single hr (not_mm_hook_obj j)
  | num n => exact mm_of_single hr (not_mm_hook_obj j)
  | str s => exact mm_of_single hr (not_mm_hook_obj j)
  | arr xs => exact mm_of_single hr (not_mm_hook_obj j)

theorem hooksBindings_not_mm {event : List Char} {fl : List (List Char × Json)} {i : Nat}
    {r : ValidationResult} (hr : r ∈ hooksBindings event fl i) :
    isMatcherMsg r.message = false := by
  unfold hooksBindings at hr
  cases hh : aget fl (chars "hooks") with
  | none =>
      rw [hh] at hr
      exact mm_of_single hr (not_mm_missing_hooks i)
  | some v =>
      rw [hh] at hr
      cases v with
      | arr hs =>
          have hr2 : r ∈ collectIdx (fun j h => hooksValidateSingleHook event h j) 0 hs := hr
          obtain ⟨j, a, _, hb⟩ := mem_collectIdx hr2
          exact hooksSingleHook_not_mm hb
      | null => exact mm_of_single hr (not_mm_hooks_list i)
      | bool b => exact mm_of_single hr (not_mm_hooks_list i)
      | num n => exact mm_of_single hr (not_mm_hooks_list i)
      | str s => exact mm_of_single hr (not_mm_hooks_list i)
      | obj fs => exact mm_of_single hr (not_mm_hooks_list i)

theorem hooksMatcherField_warning {event : List Char} {fl : List (List Char × Json)}
    {r : ValidationResult} (hr : r ∈ hooksMatcherField event fl) :
    r.severity = Severity.warning := by
  unfold hooksMatcherField at hr
  cases hm : aget fl (chars "matcher") with
  | none =>
      rw [hm] at hr
      exact absurd hr (List.not_mem_nil r)
  | some v =>
      rw [hm] at hr
      cases v with
      | str m => exact hooksValidateMatcher_warning hr
      | null => exact sev_of_single hr
      | bool b => exact sev_of_single hr
      | num n => exact sev_of_single hr
      | arr xs => exact sev_of_single hr
      | obj fs => exact sev_of_single hr

theorem hooksHookConfig_mm_warning {event : List Char} {cfg : Json} {i : Nat}
    {r : ValidationResult} (hr : r ∈ hooksValidateHookConfig event cfg i) :
    isMatcherMsg r.message = false ∨ r.severity = Severity.warning := by
  unfold hooksValidateHookConfig at hr
  cases cfg with
  | obj fl =>
      have hr2 : r ∈ hooksMatcherField event fl ++ hooksBindings event fl i := hr
      rcases List.mem_append.mp hr2 with h | h
      · exact Or.inr (hooksMatcherField_warning h)
      · exact Or.inl (hooksBindings_not_mm h)
  | null => exact Or.inl (mm_of_single hr (not_mm_config_obj i))
  | bool b => exact Or.inl (mm_of_single hr (not_mm_config_obj i))
  | num n => exact Or.inl (mm_of_single hr (not_mm_config_obj i))
  | str s => exact Or.inl (mm_of_single hr (not_mm_config_obj i))
  | arr xs => exact Or.inl (mm_of_single hr (not_mm_config_obj i))

theorem hooksEvent_mm_warning {event : List Char} {v : Json} {r : ValidationResult}
    (hr : r ∈ hooksValidateEvent event v) :
    isMatcherMsg r.message = false ∨ r.severity = Severity.warning := by
  unfold hooksValidateEvent at hr
  split at hr
  · exact Or.inl (mm_of_single hr (not_mm_invalid_event event))
  · cases v with
    | arr cfgs =>
        have hr2 : r ∈ collectIdx (fun i c => hooksValidateHookConfig event c i) 0 cfgs := hr
        obtain ⟨j, a, _, hb⟩ := mem_collectIdx hr2
        exact hooksHookConfig_mm_warning hb
    | null => exact Or.inl (mm_of_single hr (not_mm_event_list event))
    | bool b => exact Or.inl (mm_of_single hr (not_mm_event_list event))
    | num n => exact Or.inl (mm_of_single hr (not_mm_event_list event))
    | str s => exact Or.inl (mm_of_single hr (not_mm_event_list event))
    | obj fs => exact Or.inl (mm_of_single hr (not_mm_event_list event))

theorem hooksValidate_mm_warning {d : Json} {r : ValidationResult}
    (hr : r ∈ hooksValidate d) (hmm : isMatcherMsg r.message = true) :
    r.severity = Severity.warning := by
  have hcls : isMatcherMsg r.message = false ∨ r.severity = Severity.warning := by
    unfold hooksValidate at hr
    cases d with
    | obj fl =>
        rcases List.mem_append.mp hr with h | h
        · left
          cases hd : aget fl (chars "description") with
          | none =>
              rw [hd] at h
              exact absurd h (List.not_mem_nil r)
          | some v =>
              rw [hd] at h
              cases v with
              | str s => exact absurd h (List.not_mem_nil r)
              | null => exact mm_of_single h (by decide)
              | bool b => exact mm_of_single h (by decide)
              | num n => exact mm_of_single h (by decide)
              | arr xs => exact mm_of_single h (by decide)
              | obj fs => exact mm_of_single h (by decide)
        · cases hh : aget fl (chars "hooks") with
          | none =>
              rw [hh] at h
              exact Or.inl (mm_of_single h (by decide))
          | some v =>
              rw [hh] at h
              cases v with
              | obj evs =>
                  have h2 : r ∈ collectMap (fun p => hooksValidateEvent p.1 p.2) evs := h
                  obtain ⟨a, _, hb⟩ := mem_collectMap.mp h2
                  exact hooksEvent_mm_warning hb
              | null => exact Or.inl (mm_of_single h (by decide))
              | bool b => exact Or.inl (mm_of_single h (by decide))
              | num n => exact Or.inl (mm_of_single h (by decide))
              | str s => exact Or.inl (mm_of_single h (by decide))
              | arr xs => exact Or.inl (mm_of_single h (by decide))
    | null => exact Or.inl (mm_of_single hr (by decide))
    | bool b => exact Or.inl (mm_of_single hr (by decide))
    | num n => exact Or.inl (mm_of_single hr (by decide))
    | str s => exact Or.inl (mm_of_single hr (by decide))
    | arr xs => exact Or.inl (mm_of_single hr (by decide))
  rcases hcls with h | h
  · rw [hmm] at h
    exact absurd h (by decide)
  · exact h

/-- C9: for every hook-registry document whose only violations are
matcher-related — every invalid diagnostic the hooks validator emits is either
the non-string-matcher message or a closed-vocabulary matcher message — all
those invalid diagnostics have Warning severity and `has_errors` is false, so
the document still passes a non-strict run. -/
theorem c9_matcher_only_violations_pass {d : Json}
    (hinv : ∀ r ∈ hooksValidate d, r.is_valid = false → isMatcherMsg r.message = true) :
    (∀ r ∈ hooksValidate d, r.is_valid = false → r.severity = Severity.warning) ∧
      hooksHasErrors d = false := by
  constructor
  · intro r hr hiv
    exact hooksValidate_mm_warning hr (hinv r hr hiv)
  · unfold hooksHasErrors
    rw [Bool.eq_false_iff]
    intro hany
    rw [List.any_eq_true] at hany
    obtain ⟨r, hr, hp⟩ := hany
    rw [Bool.and_eq_true] at hp
    obtain ⟨h1, h2⟩ := hp
    have hiv : r.is_valid = false := by simpa using h1
    have hw := hooksValidate_mm_warning hr (hinv r hr hiv)
    rw [hw] at h2
    exact absurd h2 (by decide)

theorem c9_matcher_only_violations_pass_witness :
    (∀ r ∈ hooksValidate (hookDocWithMatcher (chars "SessionStart") (chars "weird")),
      r.is_valid = false → isMatcherMsg r.message = true) ∧
    ((∀ r ∈ hooksValidate (hookDocWithMatcher (chars "SessionStart") (chars "weird")),
        r.is_valid = false → r.severity = Severity.warning) ∧
      hooksHasErrors (hookDocWithMatcher (chars "SessionStart") (chars "weird")) = false) :=
  ⟨by decide, c9_matcher_only_violations_pass (by decide)⟩

theorem agentValidateToolNames_shapes {ts : List (List Char)} {r : ValidationResult}
    (hr : r ∈ agentValidateToolNames ts) :
    ∃ t, r = vres false (chars "Unknown tool: " ++ t) .warning := by
  unfold agentValidateToolNames at hr
  obtain ⟨t0, _, hin⟩ := mem_collectMap.mp hr
  simp at hin
  exact ⟨pyStrip t0, hin.2⟩

theorem agentFmChecks_shapes {fm : List (List Char × YVal)} {r : ValidationResult}
    (hr : r ∈ (agentFmChecks fm).1) :
    (∃ fld, fld ∈ AGENT_REQUIRED_FIELDS ∧
      (r = vres false (chars "Missing required frontmatter field: " ++ fld) .error ∨
       r = vres false (chars "Frontmatter field '" ++ fld ++ chars "' must be a string")
             .error)) ∨
    (∃ f, r = vres false (chars "Unknown frontmatter field: " ++ f) .warning) ∨
    (∃ t, r = vres false (chars "Unknown tool: " ++ t) .warning) ∨
    r = vres false (chars "tools must be a string or list") .error ∨
    (∃ m, r = vres false (chars "Unknown model: " ++ m ++ chars ". Valid: sonnet, opus, haiku")
      .warning) ∨
    r = vres false (chars "model must be a string") .error ∨
    r = vres false (chars "Description should be more descriptive (at least 10 characters)")
          .warning := by
  unfold agentFmChecks at hr
  simp only at hr
  rcases List.mem_append.mp hr with h1 | hdesc
  · rcases List.mem_append.mp h1 with h2 | hmodel
    · rcases List.mem_append.mp h2 with h3 | htools
      · rcases List.mem_append.mp h3 with hreq | hunk
        · obtain ⟨fld, hfld, hin⟩ := mem_collectMap.mp hreq
          left
          refine ⟨fld, hfld, ?_⟩
          split at hin
          · simp only [List.mem_singleton] at hin
            exact Or.inl hin
          · simp at hin
          · simp only [List.mem_singleton] at hin
            exact Or.inr hin
        · obtain ⟨p, _, hin⟩ := mem_collectMap.mp hunk
          split at hin
          · simp at hin
          · simp only [List.mem_singleton] at hin
            exact Or.inr (Or.inl ⟨p.1, hin⟩)
      · split at htools
        · simp at htools
        · obtain ⟨t, ht⟩ := agentValidateToolNames_shapes htools
          exact Or.inr (Or.inr (Or.inl ⟨t, ht⟩))
        · simp only [List.mem_singleton] at htools
          exact Or.inr (Or.inr (Or.inr (Or.inl htools)))
    · split at hmodel
      · simp at hmodel
      · split at hmodel
        · simp at hmodel
        · simp only [List.mem_singleton] at hmodel
          exact Or.inr (Or.inr (Or.inr (Or.inr (Or.inl ⟨_, hmodel⟩))))
      · simp only [List.mem_singleton] at hmodel
        exact Or.inr (Or.inr (Or.inr (Or.inr (Or.inr (Or.inl hmodel)))))
  · split at hdesc
    · split at hdesc
      · simp only [List.mem_singleton] at hdesc
        exact Or.inr (Or.inr (Or.inr (Or.inr (Or.inr (Or.inr hdesc)))))
      · simp at hdesc
    · simp at hdesc
    · simp at hdesc

theorem agentMdChecks_shapes {content : List Char} {r : ValidationResult}
    (hr : r ∈ agentMdChecks content) :
    r = vres false (chars "Agent file cannot be empty after frontmatter") .error ∨
    r = vres false (chars "Agent file should have a main heading") .warning ∨
    r = vres false (chars "Consider defining the agent's expertise clearly") .info ∨
    r = vres false (chars "Consider specifying when to use this agent") .info := by
  unfold agentMdChecks at hr
  split at hr
  · simp only [List.mem_singleton] at hr
    exact Or.inl hr
  · rcases List.mem_append.mp hr with h1 | h2
    · rcases List.mem_append.mp h1 with h3 | h4
      · split at h3
        · simp at h3
        · simp only [List.mem_singleton] at h3
          exact Or.inr (Or.inl h3)
      · split at h4
        · simp at h4
        · simp only [List.mem_singleton] at h4
          exact Or.inr (Or.inr (Or.inl h4))
    · split at h2
      · simp at h2
      · simp only [List.mem_singleton] at h2
        exact Or.inr (Or.inr (Or.inr h2))

/-- Reduction equation for `agentValidate` on a document with well-formed
front matter, covering both the raising and the non-raising paths. -/
theorem agentValidate_eq {content fmStr mdStr : List Char} {fm : List (List Char × YVal)}
    (hex : fmExtract content = .extracted fmStr mdStr)
    (hfm : parseBasicYaml true fmStr = .ok fm) :
    agentValidate content = (agentFmChecks fm).1 ++
      (match (agentFmChecks fm).2 with
       | some e => [vres false (chars "Error parsing agent file: " ++ pyErrMsg e)
                     Severity.error]
       | none => agentMdChecks mdStr) := by
  unfold agentValidate
  rw [hex]
  show (match parseBasicYaml true fmStr with
    | Except.error e =>
        [vres false (chars "Invalid frontmatter: " ++ pyErrMsg e ++
           chars ". Install PyYAML for better validation") Severity.error]
    | Except.ok fm =>
        match agentFmChecks fm with
        | (rs, some e) =>
            rs ++ [vres false (chars "Error parsing agent file: " ++ pyErrMsg e) Severity.error]
        | (rs, none) => rs ++ agentMdChecks mdStr) = _
  rw [hfm]
  show (match agentFmChecks fm with
    | (rs, some e) =>
        rs ++ [vres false (chars "Error parsing agent file: " ++ pyErrMsg e) Severity.error]
    | (rs, none) => rs ++ agentMdChecks mdStr) = _
  cases hafc : agentFmChecks fm with
  | mk rs e => cases e <;> rfl

/-- Every diagnostic the agent validator can emit, by shape. -/
theorem agentValidate_shapes {content : List Char} {r : ValidationResult}
    (hr : r ∈ agentValidate content) :
    r = vres false (chars "Agent file must start with YAML frontmatter (---)") .error ∨
    r = vres false (chars "Missing closing frontmatter delimiter (---)") .error ∨
    (∃ fld, fld ∈ AGENT_REQUIRED_FIELDS ∧
      (r = vres false (chars "Missing required frontmatter field: " ++ fld) .error ∨
       r = vres false (chars "Frontmatter field '" ++ fld ++ chars "' must be a string")
             .error)) ∨
    (∃ f, r = vres false (chars "Unknown frontmatter field: " ++ f) .warning) ∨
    (∃ t, r = vres false (chars "Unknown tool: " ++ t) .warning) ∨
    r = vres false (chars "tools must be a string or list") .error ∨
    (∃ m, r = vres false (chars "Unknown model: " ++ m ++ chars ". Valid: sonnet, opus, haiku")
      .warning) ∨
    r = vres false (chars "model must be a string") .error ∨
    r = vres false (chars "Description should be more descriptive (at least 10 characters)")
          .warning ∨
    (∃ m, r = vres false (chars "Error parsing agent file: " ++ m) .error) ∨
    r = vres false (chars "Agent file cannot be empty after frontmatter") .error ∨
    r = vres false (chars "Agent file should have a main heading") .warning ∨
    r = vres false (chars "Consider defining the agent's expertise clearly") .info ∨
    r = vres false (chars "Consider specifying when to use this agent") .info := by
  cases hex : fmExtract content with
  | noStart =>
      unfold agentValidate at hr
      rw [hex] at hr
      have hr2 : r ∈ [vres false (chars "Agent file must start with YAML frontmatter (---)")
        Severity.error] := hr
      simp only [List.mem_singleton] at hr2
      exact Or.inl hr2
  | noClose =>
      unfold agentValidate at hr
      rw [hex] at hr
      have hr2 : r ∈ [vres false (chars "Missing closing frontmatter delimiter (---)")
        Severity.error] := hr
      simp only [List.mem_singleton] at hr2
      exact Or.inr (Or.inl hr2)
  | extracted fmStr mdStr =>
      obtain ⟨fm, hfm⟩ := parseBasicYaml_ok true fmStr
      rw [agentValidate_eq hex hfm] at hr
      rcases List.mem_append.mp hr with h1 | h2
      · rcases agentFmChecks_shapes h1 with h | h | h | h | h | h | h
        · exact Or.inr (Or.inr (.inl h))
        · exact Or.inr (Or.inr (Or.inr (.inl h)))
        · exact Or.inr (Or.inr (Or.inr (Or.inr (.inl h))))
        · exact Or.inr (Or.inr (Or.inr (Or.inr (Or.inr (.inl h)))))
        · exact Or.inr (Or.inr (Or.inr (Or.inr (Or.inr (Or.inr (.inl h))))))
        · exact Or.inr (Or.inr (Or.inr (Or.inr (Or.inr (Or.inr (Or.inr (.inl h)))))))
        · exact Or.inr (Or.inr (Or.inr (Or.inr (Or.inr (Or.inr (Or.inr (Or.inr (.inl h))))))))
      · cases he : (agentFmChecks fm).2 with
        | some e =>
            rw [he] at h2
            simp only [List.mem_singleton] at h2
            exact Or.inr (Or.inr (Or.inr (Or.inr (Or.inr (Or.inr (Or.inr (Or.inr (Or.inr
              (Or.inl ⟨pyErrMsg e, h2⟩)))))))))
        | none =>
            rw [he] at h2
            rcases agentMdChecks_shapes h2 with h | h | h | h
            · exact Or.inr (Or.inr (Or.inr (Or.inr (Or.inr (Or.inr (Or.inr (Or.inr (Or.inr
                (Or.inr (.inl h))))))))))
            · exact Or.inr (Or.inr (Or.inr (Or.inr (Or.inr (Or.inr (Or.inr (Or.inr (Or.inr
                (Or.inr (Or.inr (.inl h)))))))))))
            · exact Or.inr (Or.inr (Or.inr (Or.inr (Or.inr (Or.inr (Or.inr (Or.inr (Or.inr
                (Or.inr (Or.inr (Or.inr (.inl h))))))))))))
            · exact Or.inr (Or.inr (Or.inr (Or.inr (Or.inr (Or.inr (Or.inr (Or.inr (Or.inr
                (Or.inr (Or.inr (Or.inr (Or.inr h))))))))))))

/-- Any skill diagnostic carrying an unknown-field message has Warning
severity. -/
theorem skillValidate_unknown_msg_warning {content f : List Char} {r : ValidationResult}
    (hr : r ∈ skillValidate content)
    (hmsg : r.message = chars "Unknown frontmatter field: " ++ f) :
    r.severity = Severity.warning := by
  rcases skillValidate_shapes hr with h|h|⟨fld,_,h|h⟩|⟨g,h⟩|⟨t,h⟩|h|h|h|h|h|h|h|⟨p,h⟩ <;>
    subst h <;> rw [vres_message] at hmsg
  · exact absurd hmsg (ne_append_of_take_ne _ _ _ 1 (by decide) (by decide))
  · exact absurd hmsg (ne_append_of_take_ne _ _ _ 1 (by decide) (by decide))
  · exact absurd hmsg (append_ne_append_of_take_ne _ _ _ _ 1 (by decide) (by decide) (by decide))
  · exact absurd hmsg (msg_ne_of_take 1
      (by rw [take_first 1 (chars "Frontmatter field '") fld _ (by decide),
            takeAppend 1 (chars "Unknown frontmatter field: ") f (by decide)]
          decide))
  · rfl
  · exact absurd hmsg (append_ne_append_of_take_ne _ _ _ _ 9 (by decide) (by decide) (by decide))
  · exact absurd hmsg (ne_append_of_take_ne _ _ _ 1 (by decide) (by decide))
  · rfl
  · rfl
  · exact absurd hmsg (ne_append_of_take_ne _ _ _ 1 (by decide) (by decide))
  · rfl
  · exact absurd hmsg (ne_append_of_take_ne _ _ _ 1 (by decide) (by decide))
  · exact absurd hmsg (ne_append_of_take_ne _ _ _ 1 (by decide) (by decide))
  · exact absurd hmsg (append_ne_append_of_take_ne _ _ _ _ 1 (by decide) (by decide) (by decide))

/-- Any agent diagnostic carrying an unknown-field message has Warning
severity. -/
theorem agentValidate_unknown_msg_warning {content f : List Char} {r : ValidationResult}
    (hr : r ∈ agentValidate content)
    (hmsg : r.message = chars "Unknown frontmatter field: " ++ f) :
    r.severity = Severity.warning := by
  rcases agentValidate_shapes hr with
    h|h|⟨fld,_,h|h⟩|⟨g,h⟩|⟨t,h⟩|h|⟨m,h⟩|h|h|⟨m,h⟩|h|h|h|h <;>
    subst h <;> rw [vres_message] at hmsg
  · exact absurd hmsg (ne_append_of_take_ne _ _ _ 1 (by decide) (by decide))
  · exact absurd hmsg (ne_append_of_take_ne _ _ _ 1 (by decide) (by decide))
  · exact absurd hmsg (append_ne_append_of_take_ne _ _ _ _ 1 (by decide) (by decide) (by decide))
  · exact absurd hmsg (msg_ne_of_take 1
      (by rw [take_first 1 (chars "Frontmatter field '") fld _ (by decide),
            takeAppend 1 (chars "Unknown frontmatter field: ") f (by decide)]
          decide))
  · rfl
  · rfl
  · exact absurd hmsg (ne_append_of_take_ne _ _ _ 1 (by decide) (by decide))
  · rfl
  · exact absurd hmsg (ne_append_of_take_ne _ _ _ 1 (by decide) (by decide))
  · rfl
  · exact absurd hmsg (append_ne_append_of_take_ne _ _ _ _ 1 (by decide) (by decide) (by decide))
  · exact absurd hmsg (ne_append_of_take_ne _ _ _ 1 (by decide) (by decide))
  · rfl
  · exact absurd hmsg (ne_append_of_take_ne _ _ _ 1 (by decide) (by decide))
  · exact absurd hmsg (ne_append_of_take_ne _ _ _ 1 (by decide) (by decide))

theorem skillFmChecks_unknown_mem {fm : List (List Char × YVal)} {f : List Char}
    (hf : f ∈ fm.map Prod.fst) (hn : SKILL_ALL_FIELDS.contains f = false) :
    vres false (chars "Unknown frontmatter field: " ++ f) .warning ∈ (skillFmChecks fm).1 := by
  obtain ⟨p, hp, hp1⟩ := List.mem_map.mp hf
  unfold skillFmChecks
  simp only
  refine List.mem_append.mpr (Or.inl (List.mem_append.mpr (Or.inl (List.mem_append.mpr
    (Or.inr ?_)))))
  have hn2 : f ∉ SKILL_ALL_FIELDS := by simpa using hn
  refine mem_collectMap.mpr ⟨p, hp, ?_⟩
  simp [hp1, hn2]

theorem agentFmChecks_unknown_mem {fm : List (List Char × YVal)} {f : List Char}
    (hf : f ∈ fm.map Prod.fst) (hn : AGENT_ALL_FIELDS.contains f = false) :
    vres false (chars "Unknown frontmatter field: " ++ f) .warning ∈ (agentFmChecks fm).1 := by
  obtain ⟨p, hp, hp1⟩ := List.mem_map.mp hf
  unfold agentFmChecks
  simp only
  refine List.mem_append.mpr (Or.inl (List.mem_append.mpr (Or.inl (List.mem_append.mpr
    (Or.inl (List.mem_append.mpr (Or.inr ?_)))))))
  have hn2 : f ∉ AGENT_ALL_FIELDS := by simpa using hn
  refine mem_collectMap.mpr ⟨p, hp, ?_⟩
  simp [hp1, hn2]

/-- C4 (amended): the skill and agent validators do emit a Warning-severity
diagnostic naming any front-matter field outside their field sets, and every
diagnostic carrying that unknown-field message is a Warning; the hooks
validator, by contrast, ignores unrecognized fields entirely (see the
counterexample). -/
theorem c4_skill_agent_unknown_field_warning
    (content fmStr mdStr f : List Char) (fmS fmA : List (List Char × YVal))
    (hex : fmExtract content = .extracted fmStr mdStr)
    (hpS : parseBasicYaml false fmStr = Except.ok fmS)
    (hpA : parseBasicYaml true fmStr = Except.ok fmA)
    (hfS : f ∈ fmS.map Prod.fst)
    (hfA : f ∈ fmA.map Prod.fst)
    (hnS : SKILL_ALL_FIELDS.contains f = false)
    (hnA : AGENT_ALL_FIELDS.contains f = false) :
    (vres false (chars "Unknown frontmatter field: " ++ f) .warning ∈ skillValidate content ∧
      ∀ r ∈ skillValidate content,
        r.message = chars "Unknown frontmatter field: " ++ f →
          r.severity = Severity.warning) ∧
    (vres false (chars "Unknown frontmatter field: " ++ f) .warning ∈ agentValidate content ∧
      ∀ r ∈ agentValidate content,
        r.message = chars "Unknown frontmatter field: " ++ f →
          r.severity = Severity.warning) := by
  refine ⟨⟨?_, fun r hr hm => skillValidate_unknown_msg_warning hr hm⟩,
    ⟨?_, fun r hr hm => agentValidate_unknown_msg_warning hr hm⟩⟩
  · have hno : (skillFmChecks fmS).2 = none :=
      skillFmChecks_noexc (parseBasicYaml_false_strings hpS)
    have hsc : skillFmChecks fmS = ((skillFmChecks fmS).1, none) := by rw [← hno]
    rw [skillValidate_ok hex hpS hsc]
    exact List.mem_append.mpr (Or.inl (skillFmChecks_unknown_mem hfS hnS))
  · rw [agentValidate_eq hex hpA]
    exact List.mem_append.mpr (Or.inl (agentFmChecks_unknown_mem hfA hnA))

theorem c4_skill_agent_unknown_field_warning_witness :
    (fmExtract (chars "---\nname: x\ndescription: use when testing things\ncustom: y\n---\n# T") =
      .extracted (chars "name: x\ndescription: use when testing things\ncustom: y")
        (chars "# T")) ∧
    ((vres false (chars "Unknown frontmatter field: " ++ chars "custom") .warning ∈
        skillValidate
          (chars "---\nname: x\ndescription: use when testing things\ncustom: y\n---\n# T") ∧
      ∀ r ∈ skillValidate
          (chars "---\nname: x\ndescription: use when testing things\ncustom: y\n---\n# T"),
        r.message = chars "Unknown frontmatter field: " ++ chars "custom" →
          r.severity = Severity.warning) ∧
    (vres false (chars "Unknown frontmatter field: " ++ chars "custom") .warning ∈
        agentValidate
          (chars "---\nname: x\ndescription: use when testing things\ncustom: y\n---\n# T") ∧
      ∀ r ∈ agentValidate
          (chars "---\nname: x\ndescription: use when testing things\ncustom: y\n---\n# T"),
        r.message = chars "Unknown frontmatter field: " ++ chars "custom" →
          r.severity = Severity.warning)) :=
  ⟨by decide,
   c4_skill_agent_unknown_field_warning
     (chars "---\nname: x\ndescription: use when testing things\ncustom: y\n---\n# T")
     (chars "name: x\ndescription: use when testing things\ncustom: y") (chars "# T")
     (chars "custom")
     [(chars "name", .s (chars "x")),
      (chars "description", .s (chars "use when testing things")),
      (chars "custom", .s (chars "y"))]
     [(chars "name", .s (chars "x")),
      (chars "description", .s (chars "use when testing things")),
      (chars "custom", .s (chars "y"))]
     (by decide) (by decide) (by decide) (by decide) (by decide) (by decide) (by decide)⟩

/-- On a document whose header block contains no `---` substring (even when
followed by `--`), the extractor cuts at the very next `---` substring. -/
theorem fmExtract_split (a b : List Char)
    (h1 : splitAux (chars "---") ((chars "\n" ++ a) ++ chars "--") = none) :
    fmExtract (chars "---" ++ ((chars "\n" ++ a) ++ chars "---" ++ b)) =
      .extracted (pyStrip (chars "\n" ++ a)) (pyStrip b) := by
  have hlit : chars "---" ++ chars "\n" = chars "---\n" := by decide
  have hpre1 : (chars "---\n").isPrefixOf
      (chars "---" ++ ((chars "\n" ++ a) ++ chars "---" ++ b)) = true := by
    have he : chars "---" ++ ((chars "\n" ++ a) ++ chars "---" ++ b) =
        chars "---\n" ++ (a ++ chars "---" ++ b) := by
      rw [← hlit]
      simp [List.append_assoc]
    rw [he]
    exact isPrefixOf_append_self _ _
  have hs1 : splitAux (chars "---") (chars "---" ++ ((chars "\n" ++ a) ++ chars "---" ++ b)) =
      some ([], (chars "\n" ++ a) ++ chars "---" ++ b) := by
    have h := splitAux_append_first (chars "---") []
      ((chars "\n" ++ a) ++ chars "---" ++ b) (by decide) (by decide)
    simpa using h
  have hs2 : splitAux (chars "---") ((chars "\n" ++ a) ++ chars "---" ++ b) =
      some (chars "\n" ++ a, b) := by
    refine splitAux_append_first (chars "---") (chars "\n" ++ a) b (by decide) ?_
    rw [show (chars "---").dropLast = chars "--" by decide]
    exact h1
  have e1 : pySplitN (chars "---") 2 (chars "---" ++ ((chars "\n" ++ a) ++ chars "---" ++ b)) =
      ([] : List Char) :: pySplitN (chars "---") 1 ((chars "\n" ++ a) ++ chars "---" ++ b) := by
    have h := pySplitN_succ (chars "---") 1 (chars "---" ++ ((chars "\n" ++ a) ++ chars "---" ++ b))
    rw [hs1] at h
    exact h
  have e2 : pySplitN (chars "---") 1 ((chars "\n" ++ a) ++ chars "---" ++ b) =
      (chars "\n" ++ a) :: pySplitN (chars "---") 0 b := by
    have h := pySplitN_succ (chars "---") 0 ((chars "\n" ++ a) ++ chars "---" ++ b)
    rw [hs2] at h
    exact h
  have hsp : pySplitN (chars "---") 2 (chars "---" ++ ((chars "\n" ++ a) ++ chars "---" ++ b)) =
      [[], chars "\n" ++ a, b] := by
    rw [e1, e2, pySplitN_zero]
  unfold fmExtract
  rw [if_neg (by rw [hpre1]; decide), hsp]

/-- On a document whose text after the opening delimiter contains no `---`
substring, the extractor reports a missing closing delimiter. -/
theorem fmExtract_noClose_eq (a : List Char)
    (h2 : splitAux (chars "---") (chars "\n" ++ a) = none) :
    fmExtract (chars "---" ++ (chars "\n" ++ a)) = .noClose := by
  have hlit : chars "---" ++ chars "\n" = chars "---\n" := by decide
  have hpre2 : (chars "---\n").isPrefixOf (chars "---" ++ (chars "\n" ++ a)) = true := by
    have he : chars "---" ++ (chars "\n" ++ a) = chars "---\n" ++ a := by
      rw [← hlit]
      simp [List.append_assoc]
    rw [he]
    exact isPrefixOf_append_self _ _
  have hs1 : splitAux (chars "---") (chars "---" ++ (chars "\n" ++ a)) =
      some ([], chars "\n" ++ a) := by
    have h := splitAux_append_first (chars "---") [] (chars "\n" ++ a) (by decide) (by decide)
    simpa using h
  have e1 : pySplitN (chars "---") 2 (chars "---" ++ (chars "\n" ++ a)) =
      ([] : List Char) :: pySplitN (chars "---") 1 (chars "\n" ++ a) := by
    have h := pySplitN_succ (chars "---") 1 (chars "---" ++ (chars "\n" ++ a))
    rw [hs1] at h
    exact h
  have e2 : pySplitN (chars "---") 1 (chars "\n" ++ a) = [chars "\n" ++ a] := by
    have h := pySplitN_succ (chars "---") 0 (chars "\n" ++ a)
    rw [h2] at h
    exact h
  have hsp : pySplitN (chars "---") 2 (chars "---" ++ (chars "\n" ++ a)) =
      [[], chars "\n" ++ a] := by
    rw [e1, e2]
  unfold fmExtract
  rw [if_neg (by rw [hpre2]; decide), hsp]

/-- C8 (amended): the front-matter extractor cuts at the first occurrence of
`---` as a *substring* after the opening delimiter line (both blocks stripped),
not at the second delimiter *line*; and on a document with no closing `---`
substring at all, both the skill and the agent validator emit exactly the
single Missing-closing-delimiter Error and perform no further checks.  The
`splitAux` hypotheses say that `a` (the header text) contains no `---`
substring, even when followed by `--`. -/
theorem c8_substring_extraction (a b : List Char)
    (h1 : splitAux (chars "---") ((chars "\n" ++ a) ++ chars "--") = none)
    (h2 : splitAux (chars "---") (chars "\n" ++ a) = none) :
    fmExtract (chars "---" ++ ((chars "\n" ++ a) ++ chars "---" ++ b)) =
      .extracted (pyStrip (chars "\n" ++ a)) (pyStrip b) ∧
    fmExtract (chars "---" ++ (chars "\n" ++ a)) = .noClose ∧
    skillValidate (chars "---" ++ (chars "\n" ++ a)) =
      [vres false (chars "Missing closing frontmatter delimiter (---)") .error] ∧
    agentValidate (chars "---" ++ (chars "\n" ++ a)) =
      [vres false (chars "Missing closing frontmatter delimiter (---)") .error] := by
  have hnc := fmExtract_noClose_eq a h2
  refine ⟨fmExtract_split a b h1, hnc, ?_, ?_⟩
  · unfold skillValidate
    rw [hnc]
  · unfold agentValidate
    rw [hnc]

theorem c8_substring_extraction_witness :
    (splitAux (chars "---") ((chars "\n" ++ chars "name: x") ++ chars "--") = none ∧
     splitAux (chars "---") (chars "\n" ++ chars "name: x") = none) ∧
    (fmExtract (chars "---" ++ ((chars "\n" ++ chars "name: x") ++ chars "---" ++
        chars "\n# T")) =
      .extracted (pyStrip (chars "\n" ++ chars "name: x")) (pyStrip (chars "\n# T")) ∧
    fmExtract (chars "---" ++ (chars "\n" ++ chars "name: x")) = .noClose ∧
    skillValidate (chars "---" ++ (chars "\n" ++ chars "name: x")) =
      [vres false (chars "Missing closing frontmatter delimiter (---)") .error] ∧
    agentValidate (chars "---" ++ (chars "\n" ++ chars "name: x")) =
      [vres false (chars "Missing closing frontmatter delimiter (---)") .error]) :=
  ⟨⟨by decide, by decide⟩,
   c8_substring_extraction (chars "name: x") (chars "\n# T") (by decide) (by decide)⟩

theorem parseYamlLine_name (acc : List (List Char × YVal)) (v : List Char)
    (h1 : v.dropWhile isPySpace = v) (h2 : rstrip v = v) (h3 : stripQuotes v = v)
    (hne : v ≠ []) :
    parseYamlLine false acc (chars "name: " ++ v) = .ok (iou acc (chars "name") (.s v)) := by
  have hds : (chars "name: " ++ v).dropWhile isPySpace = chars "name: " ++ v := rfl
  have hrs : rstrip (chars "name: " ++ v) = chars "name: " ++ v := by
    rw [rstrip_append, if_neg (by rw [h2]; exact hne), h2]
  have hline : pyStrip (chars "name: " ++ v) = chars "name: " ++ v := by
    unfold pyStrip
    rw [hds, hrs]
  have hsa : splitAux (chars ":") (chars "name: " ++ v) =
      some (chars "name", chars " " ++ v) :=
    splitAux_append_first (chars ":") (chars "name") (chars " " ++ v) (by decide) (by decide)
  have hsp : pySplitN (chars ":") 1 (chars "name: " ++ v) = [chars "name", chars " " ++ v] := by
    have h := pySplitN_succ (chars ":") 0 (chars "name: " ++ v)
    rw [hsa] at h
    exact h
  have hv1 : pyStrip (chars " " ++ v) = v := by
    unfold pyStrip
    show rstrip ((' ' :: v).dropWhile isPySpace) = v
    rw [List.dropWhile_cons, if_pos (by decide), h1, h2]
  have hcond : (!(pyStrip (chars "name: " ++ v)).isEmpty &&
      (pyStrip (chars "name: " ++ v)).contains ':' &&
      !((chars "#").isPrefixOf (pyStrip (chars "name: " ++ v)))) = true := by
    rw [hline]
    have hc : (chars "name: " ++ v).contains ':' = true := by
      rw [contains_append]
      rfl
    rw [hc]
    rfl
  unfold parseYamlLine
  rw [if_pos hcond, hline, hsp]
  show Except.ok (iou acc (pyStrip (chars "name"))
      (YVal.s (stripQuotes (pyStrip (chars " " ++ v))))) =
    Except.ok (iou acc (chars "name") (YVal.s v))
  rw [hv1, h3]
  rfl

theorem parseYamlLine_description (acc : List (List Char × YVal)) (v : List Char)
    (h1 : v.dropWhile isPySpace = v) (h2 : rstrip v = v) (h3 : stripQuotes v = v)
    (hne : v ≠ []) :
    parseYamlLine false acc (chars "description: " ++ v) =
      .ok (iou acc (chars "description") (.s v)) := by
  have hds : (chars "description: " ++ v).dropWhile isPySpace =
      chars "description: " ++ v := rfl
  have hrs : rstrip (chars "description: " ++ v) = chars "description: " ++ v := by
    rw [rstrip_append, if_neg (by rw [h2]; exact hne), h2]
  have hline : pyStrip (chars "description: " ++ v) = chars "description: " ++ v := by
    unfold pyStrip
    rw [hds, hrs]
  have hsa : splitAux (chars ":") (chars "description: " ++ v) =
      some (chars "description", chars " " ++ v) :=
    splitAux_append_first (chars ":") (chars "description") (chars " " ++ v)
      (by decide) (by decide)
  have hsp : pySplitN (chars ":") 1 (chars "description: " ++ v) =
      [chars "description", chars " " ++ v] := by
    have h := pySplitN_succ (chars ":") 0 (chars "description: " ++ v)
    rw [hsa] at h
    exact h
  have hv1 : pyStrip (chars " " ++ v) = v := by
    unfold pyStrip
    show rstrip ((' ' :: v).dropWhile isPySpace) = v
    rw [List.dropWhile_cons, if_pos (by decide), h1, h2]
  have hcond : (!(pyStrip (chars "description: " ++ v)).isEmpty &&
      (pyStrip (chars "description: " ++ v)).contains ':' &&
      !((chars "#").isPrefixOf (pyStrip (chars "description: " ++ v)))) = true := by
    rw [hline]
    have hc : (chars "description: " ++ v).contains ':' = true := by
      rw [contains_append]
      rfl
    rw [hc]
    rfl
  unfold parseYamlLine
  rw [if_pos hcond, hline, hsp]
  show Except.ok (iou acc (pyStrip (chars "description"))
      (YVal.s (stripQuotes (pyStrip (chars " " ++ v))))) =
    Except.ok (iou acc (chars "description") (YVal.s v))
  rw [hv1, h3]
  rfl

theorem parseBasicYaml_two (nm d : List Char)
    (hnm1 : nm.dropWhile isPySpace = nm) (hnm2 : rstrip nm = nm) (hnm3 : stripQuotes nm = nm)
    (hnmne : nm ≠ []) (hnmc : nm.contains '\n' = false)
    (hd1 : d.dropWhile isPySpace = d) (hd2 : rstrip d = d) (hd3 : stripQuotes d = d)
    (hdne : d ≠ []) (hdc : d.contains '\n' = false) :
    parseBasicYaml false (chars "name: " ++ (nm ++ (chars "\ndescription: " ++ d))) =
      .ok [(chars "name", .s nm), (chars "description", .s d)] := by
  unfold parseBasicYaml
  have hfirst : (chars "name: " ++ nm).contains '\n' = false := by
    rw [contains_append, hnmc]
    decide
  have hsecond : (chars "description: " ++ d).contains '\n' = false := by
    rw [contains_append, hdc]
    decide
  have hform : chars "name: " ++ (nm ++ (chars "\ndescription: " ++ d)) =
      (chars "name: " ++ nm) ++ ('\n' :: (chars "description: " ++ d)) := by
    rw [List.append_assoc]
    rfl
  have hsplit : pySplitChar '\n'
      (chars "name: " ++ (nm ++ (chars "\ndescription: " ++ d))) =
      [chars "name: " ++ nm, chars "description: " ++ d] := by
    rw [hform, pySplitChar_append '\n' (chars "description: " ++ d) hfirst,
      pySplitChar_no_sep hsecond]
  rw [hsplit, parseYamlLines, parseYamlLine_name [] nm hnm1 hnm2 hnm3 hnmne]
  show parseYamlLines false [chars "description: " ++ d] [(chars "name", YVal.s nm)] =
    Except.ok [(chars "name", .s nm), (chars "description", .s d)]
  rw [parseYamlLines,
    parseYamlLine_description [(chars "name", YVal.s nm)] d hd1 hd2 hd3 hdne]
  rfl

/-- C2 (counterexample): a skill document with front matter holding exactly
`name` and a 40-character `description`, and a body with a level-1 heading,
still draws a Warning when the description does not mention when to use the
skill — the claim's zero-Warning guarantee fails. -/
theorem c2_forty_char_description_warning_counterexample :
    (chars "A description of this skill for testing.").length = 40 ∧
    (skillValidate (chars "---\nname: test\ndescription: A description of this skill for testing.\n---\n# Test")).filter
        (fun r => r.severity == Severity.warning) =
      [vres false (chars "Description should include when to use the skill") .warning] := by
  decide

/-- C2 (amended): a minimal skill document whose front matter holds exactly a
`name` and a 40-character `description` that mentions "use when", followed by
a body with a level-1 heading, yields only Info-severity diagnostics — no
Errors and no Warnings.  The `splitAux` hypothesis says the header contains no
stray `---` substring; the strip/quote hypotheses say the field values carry
no leading/trailing whitespace, wrapping quotes, or embedded newlines. -/
theorem c2_minimal_skill_info_only (nm d body : List Char)
    (hsep : splitAux (chars "---")
      ((chars "\n" ++ (chars "name: " ++ (nm ++ (chars "\ndescription: " ++
        (d ++ chars "\n"))))) ++ chars "--") = none)
    (hnm1 : nm.dropWhile isPySpace = nm) (hnm2 : rstrip nm = nm)
    (hnm3 : stripQuotes nm = nm) (hnmne : nm ≠ []) (hnmc : nm.contains '\n' = false)
    (hd1 : d.dropWhile isPySpace = d) (hd2 : rstrip d = d) (hd3 : stripQuotes d = d)
    (hdc : d.contains '\n' = false) (hlen : d.length = 40)
    (huse : containsSub (pyLower d) (chars "use when") = true)
    (hb1 : body.dropWhile isPySpace = body) (hb2 : rstrip body = body)
    (hbne : body ≠ [])
    (hhead : (pySplitChar '\n' body).any
      (fun l => (chars "# ").isPrefixOf (pyStrip l)) = true) :
    ∀ r ∈ skillValidate (skillDoc nm d body), r.severity = Severity.info := by
  have hdne : d ≠ [] := by
    intro h
    rw [h] at hlen
    simp at hlen
  have e3 : rstrip (d ++ chars "\n") = d := by
    rw [rstrip_append, if_pos (by decide)]
    exact hd2
  have e2 : rstrip (chars "\ndescription: " ++ (d ++ chars "\n")) =
      chars "\ndescription: " ++ d := by
    rw [rstrip_append, e3, if_neg hdne]
  have e1 : rstrip (nm ++ (chars "\ndescription: " ++ (d ++ chars "\n"))) =
      nm ++ (chars "\ndescription: " ++ d) := by
    rw [rstrip_append, e2, if_neg (by
      intro h
      exact absurd (List.append_eq_nil.mp h).1 (by decide))]
  have hfmstr : pyStrip (chars "\n" ++ (chars "name: " ++ (nm ++ (chars "\ndescription: " ++
      (d ++ chars "\n"))))) = chars "name: " ++ (nm ++ (chars "\ndescription: " ++ d)) := by
    unfold pyStrip
    show rstrip (('\n' :: (chars "name: " ++ (nm ++ (chars "\ndescription: " ++
      (d ++ chars "\n"))))).dropWhile isPySpace) = _
    rw [List.dropWhile_cons, if_pos (by decide),
      show (chars "name: " ++ (nm ++ (chars "\ndescription: " ++
        (d ++ chars "\n")))).dropWhile isPySpace =
        chars "name: " ++ (nm ++ (chars "\ndescription: " ++ (d ++ chars "\n"))) from rfl,
      rstrip_append, e1, if_neg (by
        intro h
        exact absurd (List.append_eq_nil.mp (List.append_eq_nil.mp h).2).1 (by decide))]
  have hmdstr : pyStrip (chars "\n" ++ body) = body := by
    unfold pyStrip
    show rstrip (('\n' :: body).dropWhile isPySpace) = body
    rw [List.dropWhile_cons, if_pos (by decide), hb1, hb2]
  have hexd : fmExtract (skillDoc nm d body) =
      .extracted (chars "name: " ++ (nm ++ (chars "\ndescription: " ++ d))) body := by
    have h := fmExtract_split
      (chars "name: " ++ (nm ++ (chars "\ndescription: " ++ (d ++ chars "\n"))))
      (chars "\n" ++ body) hsep
    rw [hfmstr, hmdstr] at h
    exact h
  have hps := parseBasicYaml_two nm d hnm1 hnm2 hnm3 hnmne hnmc hd1 hd2 hd3 hdne hdc
  have hsc : skillFmChecks [(chars "name", YVal.s nm), (chars "description", YVal.s d)] =
      ([], none) := by
    show ((if d.length < 10 then
        [vres false (chars "Description should be more descriptive (at least 10 characters)")
          Severity.warning]
      else if !(containsSub (pyLower d) (chars "use when")) then
        [vres false (chars "Description should include when to use the skill")
          Severity.warning]
      else []), (none : Option PyErr)) = ([], none)
    rw [hlen, if_neg (by decide), huse, if_neg (by decide)]
  have hstrip : pyStrip body = body := by
    unfold pyStrip
    rw [hb1, hb2]
  have hbe : body.isEmpty = false := by
    cases body with
    | nil => exact absurd rfl hbne
    | cons x xs => rfl
  have hmd2 : ∀ r ∈ skillMdChecks body, r.severity = Severity.info := by
    intro r hr
    unfold skillMdChecks at hr
    rw [if_neg (by intro h; rw [hstrip] at h; rw [hbe] at h; exact Bool.false_ne_true h)] at hr
    rcases List.mem_append.mp hr with h1 | h2
    · rcases List.mem_append.mp h1 with h3 | h4
      · rcases List.mem_append.mp h3 with h5 | h6
        · split at h5
          · exact absurd h5 (List.not_mem_nil r)
          · exact absurd hhead (by assumption)
        · split at h6
          · exact absurd h6 (List.not_mem_nil r)
          · simp only [List.mem_singleton] at h6
            rw [h6]
            rfl
      · split at h4
        · exact absurd h4 (List.not_mem_nil r)
        · simp only [List.mem_singleton] at h4
          rw [h4]
          rfl
    · obtain ⟨p, _, hin⟩ := mem_collectMap.mp h2
      split at hin
      · simp only [List.mem_singleton] at hin
        rw [hin]
        rfl
      · exact absurd hin (List.not_mem_nil r)
  intro r hr
  rw [skillValidate_ok hexd hps hsc, List.nil_append] at hr
  exact hmd2 r hr

theorem c2_minimal_skill_info_only_witness :
    (chars "Use when testing the validator pipeline.").length = 40 ∧
    containsSub (pyLower (chars "Use when testing the validator pipeline.")) (chars "use when")
      = true ∧
    ∀ r ∈ skillValidate (skillDoc (chars "test")
        (chars "Use when testing the validator pipeline.") (chars "# Test")),
      r.severity = Severity.info :=
  ⟨by decide, by decide,
   c2_minimal_skill_info_only (chars "test")
     (chars "Use when testing the validator pipeline.") (chars "# Test")
     (by decide) (by decide) (by decide) (by decide) (by decide) (by decide)
     (by decide) (by decide) (by decide) (by decide) (by decide) (by decide)
     (by decide) (by decide) (by decide) (by decide)⟩
